import Mathlib

/-!
# Verification of the noSQL-diagram-tool schema graph engine

Shallow embedding of the core of the `noSQL-diagram-tool` repository:
the data model (`src/types/index.ts`), the reference-integrity manager
(`ReferenceManager`, the variant that writes the connect property into the
source entity and removes the deleted entity), the layout engine
(`LayoutEngine` / `applyLayoutToDiagram`), the schema importer
(`SchemaParser`) and the schema exporter (`SchemaExporter`).

Modelling conventions:
* JS objects used as string-keyed records become insertion-ordered
  association lists `List (String × α)`; assignment `obj[k] = v` keeps the
  position of an existing key and appends otherwise (`recSet`), matching JS
  object key order for non-numeric keys.
* JS numbers become `JsNum`, exact integer fractions with non-normalizing
  arithmetic.  All arithmetic performed by the grid and hierarchical layouts
  and by the converters on the inputs exercised here is exact, where IEEE
  doubles and exact fractions agree.  `Math.sqrt` (used only by the
  force-directed layout for force magnitudes) is kept abstract as an
  explicit function parameter `sqrtFn`.
* Nondeterministic id generation (`Date.now()`, `uuidv4()`) is made explicit:
  `Date.now()` becomes a string parameter, `uuidv4()` a counter-indexed
  fresh-name supply (`uuidName`).
* JS runtime errors (the non-null `!` assertions on `Map.get` in the
  force-directed layout, which throw for relationships whose endpoints are
  not entities) become `Option`.
-/

set_option maxHeartbeats 1000000
set_option maxRecDepth 8000

namespace NoSqlDiagram

/-! ## Generic record (JS object) helpers -/

/-- JS object assignment `m[k] = v`: overwrite in place if the key is
present, append otherwise (JS objects keep first-insertion key order). -/
def recSet {α : Type} (m : List (String × α)) (k : String) (v : α) :
    List (String × α) :=
  if m.any (fun kv => kv.1 == k) then
    m.map (fun kv => if kv.1 == k then (k, v) else kv)
  else
    m ++ [(k, v)]

/-- JS object read `m[k]` (first occurrence). -/
def recGet {α : Type} (m : List (String × α)) (k : String) : Option α :=
  (m.find? (fun kv => kv.1 == k)).map (fun kv => kv.2)

/-- `Map.set` for a JS `Map` modelled as an association list:
overwrite in place, append if new. -/
def mapSet {κ α : Type} [BEq κ] (m : List (κ × α)) (k : κ) (v : α) :
    List (κ × α) :=
  if m.any (fun kv => kv.1 == k) then
    m.map (fun kv => if kv.1 == k then (k, v) else kv)
  else
    m ++ [(k, v)]

/-- `Map.get` for a JS `Map` modelled as an association list. -/
def mapGet {κ α : Type} [BEq κ] (m : List (κ × α)) (k : κ) : Option α :=
  (m.find? (fun kv => kv.1 == k)).map (fun kv => kv.2)

/-! ## JS numbers -/

/-- JS numbers, modelled as exact integer fractions with non-normalizing
field arithmetic.  Every numeric computation the verified claims inspect is
exact small-integer (or exact-half) arithmetic, on which IEEE doubles,
normalized rationals and these raw fractions all agree; `Math.sqrt`, the
one source of irrational values (force-directed layout only), is kept as an
abstract function parameter and never evaluated.  Denominators are nonzero
in every evaluated computation. -/
structure JsNum where
  num : Int
  den : Int
deriving DecidableEq

namespace JsNum

instance (n : Nat) : OfNat JsNum n := ⟨⟨(n : Int), 1⟩⟩

instance : NatCast JsNum := ⟨fun n => ⟨(n : Int), 1⟩⟩

instance : Add JsNum :=
  ⟨fun a b => ⟨a.num * b.den + b.num * a.den, a.den * b.den⟩⟩

instance : Sub JsNum :=
  ⟨fun a b => ⟨a.num * b.den - b.num * a.den, a.den * b.den⟩⟩

instance : Mul JsNum := ⟨fun a b => ⟨a.num * b.num, a.den * b.den⟩⟩

instance : Div JsNum := ⟨fun a b => ⟨a.num * b.den, a.den * b.num⟩⟩

/-- Numeric value equality (`==` on JS numbers). -/
def beqv (a b : JsNum) : Bool := a.num * b.den == b.num * a.den

instance : BEq JsNum := ⟨beqv⟩

/-- Numeric strict order (`<` on JS numbers), by sign-corrected
cross-multiplication. -/
def Lt (a b : JsNum) : Prop :=
  (a.num * b.den - b.num * a.den) * (a.den * b.den) < 0

instance : LT JsNum := ⟨Lt⟩

instance (a b : JsNum) : Decidable (a < b) :=
  inferInstanceAs
    (Decidable ((a.num * b.den - b.num * a.den) * (a.den * b.den) < 0))

/-- `Math.min` on two numbers. -/
def jmin (a b : JsNum) : JsNum := if a < b then a else b

end JsNum

/-! ## Data model (`src/types/index.ts`) -/

/-- `Property` from `src/types/index.ts`.  Recursive through `items`
(array element descriptor) and `properties` (nested object fields), so it is
an inductive type; accessors and field-update helpers follow. -/
inductive Property where
  | mk (name : String) (type : String) (description : Option String)
      (required : Option Bool) (ref : Option String)
      (referenceEntityId : Option String)
      (items : Option Property)
      (properties : Option (List (String × Property)))

namespace Property

def name : Property → String
  | .mk n _ _ _ _ _ _ _ => n

def type : Property → String
  | .mk _ t _ _ _ _ _ _ => t

def description : Property → Option String
  | .mk _ _ d _ _ _ _ _ => d

def required : Property → Option Bool
  | .mk _ _ _ r _ _ _ _ => r

def ref : Property → Option String
  | .mk _ _ _ _ rf _ _ _ => rf

def referenceEntityId : Property → Option String
  | .mk _ _ _ _ _ rid _ _ => rid

def items : Property → Option Property
  | .mk _ _ _ _ _ _ it _ => it

def properties : Property → Option (List (String × Property))
  | .mk _ _ _ _ _ _ _ ps => ps

@[simp] theorem required_mk (n t : String) (d : Option String)
    (r : Option Bool) (rf rid : Option String) (it : Option Property)
    (ps : Option (List (String × Property))) :
    (Property.mk n t d r rf rid it ps).required = r := rfl

/-- `{...p, type: t}` -/
def setType : Property → String → Property
  | .mk n _ d r rf rid it ps, t => .mk n t d r rf rid it ps

/-- `{...p, referenceEntityId: rid}` (`undefined` is `none`). -/
def setRefId : Property → Option String → Property
  | .mk n t d r rf _ it ps, rid => .mk n t d r rf rid it ps

/-- `{...p, name: n}` -/
def setName : Property → String → Property
  | .mk _ t d r rf rid it ps, n => .mk n t d r rf rid it ps

/-- `{...p, description: d}` -/
def setDescription : Property → Option String → Property
  | .mk n t _ r rf rid it ps, d => .mk n t d r rf rid it ps

/-- `p.ref = r` -/
def setRef : Property → Option String → Property
  | .mk n t d r _ rid it ps, rf => .mk n t d r rf rid it ps

/-- `p.items = it` -/
def setItems : Property → Option Property → Property
  | .mk n t d r rf rid _ ps, it => .mk n t d r rf rid it ps

/-- `p.properties = ps` -/
def setProperties : Property → Option (List (String × Property)) → Property
  | .mk n t d r rf rid it _, ps => .mk n t d r rf rid it ps

end Property

/-- Entity position `{x, y}`. -/
structure Position where
  x : JsNum
  y : JsNum
deriving DecidableEq

/-- `Entity` from `src/types/index.ts`. -/
structure Entity where
  id : String
  name : String
  type : String
  description : Option String := none
  properties : List (String × Property)
  required : Option (List String) := none
  position : Position
  color : Option String := none

/-- `Relationship` from `src/types/index.ts`. -/
structure Relationship where
  id : String
  source : String
  target : String
  sourceHandle : Option String := none
  targetHandle : Option String := none
  type : String
  label : Option String := none

/-- The `metadata` field of `DiagramData`. -/
structure Metadata where
  title : Option String := none
  description : Option String := none
  version : Option String := none

/-- `DiagramData` from `src/types/index.ts`: the aggregate Diagram root. -/
structure DiagramData where
  entities : List Entity
  relationships : List Relationship
  metadata : Option Metadata := none

/-! ## Name casing utilities (`src/types/index.ts`) -/

/-- JS regex `\w`: ASCII word character. -/
def isWordChar (c : Char) : Bool :=
  (c.isAlpha || c.isDigit) || c == '_'

/-- A character at offset `idx` (with preceding character `prev`) matches the
regex `(?:^\w|[A-Z]|\b\w)` of `toCamelCase`/`toTitleCase`:
a word character at the start, an uppercase letter, or a word character
after a word boundary. -/
def caseMatch (prev : Option Char) (idx : Nat) (c : Char) : Bool :=
  (idx == 0 && isWordChar c) || c.isUpper ||
    (isWordChar c &&
      (match prev with
       | none => true
       | some p => !isWordChar p))

/-- One pass of `String.replace` with the casing regex: every matched
character is rewritten by `f idx c` (the JS replacer receives the match
offset as `index`). -/
def caseMapChars (f : Nat → Char → Char) :
    Option Char → Nat → List Char → List Char
  | _, _, [] => []
  | prev, idx, c :: rest =>
    (if caseMatch prev idx c then f idx c else c) ::
      caseMapChars f (some c) (idx + 1) rest

/-- `.replace(/\s+/g, '')`: drop all whitespace. -/
def stripSpaces (s : List Char) : List Char :=
  s.filter (fun c => !c.isWhitespace)

/-- `toCamelCase` from `src/types/index.ts`: matched characters are
lowercased at offset 0 and uppercased elsewhere, then whitespace is
removed. -/
def toCamelCase (s : String) : String :=
  ⟨stripSpaces (caseMapChars
      (fun idx c => if idx == 0 then c.toLower else c.toUpper)
      none 0 s.data)⟩

/-- `toTitleCase` from `src/types/index.ts`: matched characters are
uppercased, then whitespace is removed. -/
def toTitleCase (s : String) : String :=
  ⟨stripSpaces (caseMapChars (fun _ c => c.toUpper) none 0 s.data)⟩

/-! ## Reference Manager (`src/utils/referenceManager.ts`, the variant that
writes the connect property into the source entity and removes the deleted
entity in `cleanupReferencesOnEntityDelete`) -/

namespace ReferenceManager

/-- `createReferenceOnConnection(sourceEntity, targetEntity, data)`. -/
def createReferenceOnConnection (sourceEntity targetEntity : Entity)
    (data : DiagramData) : DiagramData :=
  let propertyName := toCamelCase targetEntity.name
  let existingProperty := recGet sourceEntity.properties propertyName
  if (match existingProperty with
      | some p =>
        p.type == "reference" && p.referenceEntityId == some targetEntity.id
      | none => false) then
    data
  else
    let updatedSourceEntity :=
      { sourceEntity with
        properties := recSet sourceEntity.properties propertyName
          (.mk propertyName "reference"
            (some ("Reference to " ++ targetEntity.name)) (some false)
            none (some targetEntity.id) none none) }
    let updatedEntities := data.entities.map (fun entity =>
      if entity.id == sourceEntity.id then updatedSourceEntity else entity)
    { data with entities := updatedEntities }

/-- The object produced by spreading a possibly-`undefined` property
(`{...sourceEntity.properties[propertyName], ...}` when the property does
not exist).  In JS the spread of `undefined` contributes no fields; the
`name` field of the result is then `undefined`, modelled here as `""`
(no verified claim reads it). -/
def emptySpreadProperty : Property :=
  .mk "" "" none none none none none none

/-- `createEntityForReference(propertyName, sourceEntity, data)`.
`now` stands for the value of `Date.now()` used to mint ids. -/
def createEntityForReference (propertyName : String) (sourceEntity : Entity)
    (now : String) (data : DiagramData) : DiagramData :=
  let entityName := toTitleCase propertyName
  let entityId := "entity-" ++ now
  let existingEntity := data.entities.find? (fun e =>
    e.name.toLower == entityName.toLower)
  match existingEntity with
  | some existing =>
    let base := (recGet sourceEntity.properties propertyName).getD
      emptySpreadProperty
    let updatedSourceEntity :=
      { sourceEntity with
        properties := recSet sourceEntity.properties propertyName
          ((base.setType "reference").setRefId (some existing.id)) }
    let updatedEntities := data.entities.map (fun entity =>
      if entity.id == sourceEntity.id then updatedSourceEntity else entity)
    let existingRelationship := data.relationships.find? (fun rel =>
      rel.source == sourceEntity.id && rel.target == existing.id)
    let updatedRelationships :=
      match existingRelationship with
      | some _ => data.relationships
      | none => data.relationships ++
          [{ id := "rel-" ++ now, source := sourceEntity.id,
             target := existing.id, type := "reference",
             label := some "" }]
    { data with entities := updatedEntities,
                relationships := updatedRelationships }
  | none =>
    let newEntity : Entity :=
      { id := entityId, name := entityName, type := "object",
        description := some ("Entity referenced by " ++ sourceEntity.name ++
          "." ++ propertyName),
        properties := [], required := some [],
        position := { x := sourceEntity.position.x + 400,
                      y := sourceEntity.position.y },
        color := some "#3b82f6" }
    let base := (recGet sourceEntity.properties propertyName).getD
      emptySpreadProperty
    let updatedSourceEntity :=
      { sourceEntity with
        properties := recSet sourceEntity.properties propertyName
          ((base.setType "reference").setRefId (some entityId)) }
    let newRelationship : Relationship :=
      { id := "rel-" ++ now, source := sourceEntity.id, target := entityId,
        type := "reference", label := some "" }
    let updatedEntities := data.entities.map (fun entity =>
      if entity.id == sourceEntity.id then updatedSourceEntity else entity)
    { data with entities := updatedEntities ++ [newEntity],
                relationships := data.relationships ++ [newRelationship] }

/-- `removeReference(propertyName, sourceEntity, data)`.  The source's
guard `!property || property.type !== 'reference' ||
!property.referenceEntityId` is a no-op also when `referenceEntityId` is
the empty string (JS falsiness), so the empty string joins the absent
case. -/
def removeReference (propertyName : String) (sourceEntity : Entity)
    (data : DiagramData) : DiagramData :=
  match recGet sourceEntity.properties propertyName with
  | none => data
  | some property =>
    match property.referenceEntityId with
    | none => data
    | some referencedEntityId =>
      if property.type == "reference" && !(referencedEntityId == "") then
        let updatedSourceEntity :=
          { sourceEntity with
            properties := recSet sourceEntity.properties propertyName
              ((property.setType "string").setRefId none) }
        let updatedRelationships := data.relationships.filter (fun rel =>
          !(rel.source == sourceEntity.id &&
            rel.target == referencedEntityId))
        let updatedEntities := data.entities.map (fun entity =>
          if entity.id == sourceEntity.id then updatedSourceEntity
          else entity)
        { data with entities := updatedEntities,
                    relationships := updatedRelationships }
      else data

/-- The per-entry rewrite performed by a JS
`Object.entries(entity.properties).forEach(([k, p]) => updated[f k p] = g k p)`
loop that rebuilds a fresh property record: fold the entries through
`recSet` starting from `{}`. -/
def rebuildProps (f : String × Property → String × Property)
    (props : List (String × Property)) : List (String × Property) :=
  props.foldl (fun acc kv => recSet acc (f kv).1 (f kv).2) []

/-- The per-entry body of `cleanupReferencesOnEntityDelete`'s property
loop: demote a property that references the deleted entity. -/
def cleanupStep (deletedEntityId : String) (kv : String × Property) :
    String × Property :=
  if kv.2.referenceEntityId == some deletedEntityId then
    (kv.1, (kv.2.setType "string").setRefId none)
  else kv

/-- `cleanupReferencesOnEntityDelete(deletedEntityId, data)`. -/
def cleanupReferencesOnEntityDelete (deletedEntityId : String)
    (data : DiagramData) : DiagramData :=
  let updatedEntities := data.entities.filter (fun entity =>
    !(entity.id == deletedEntityId))
  let finalEntities := updatedEntities.map (fun entity =>
    { entity with
      properties := rebuildProps (cleanupStep deletedEntityId)
        entity.properties })
  let updatedRelationships := data.relationships.filter (fun rel =>
    !(rel.source == deletedEntityId) && !(rel.target == deletedEntityId))
  { data with entities := finalEntities,
              relationships := updatedRelationships }

/-- The per-entry body of `updateReferencesOnEntityRename`'s property loop:
refresh the description of a property referencing the renamed entity, and
re-key it when it carries the camel-cased old name. -/
def renameStep (entityId oldPropertyName newPropertyName newName : String)
    (kv : String × Property) : String × Property :=
  if kv.2.referenceEntityId == some entityId then
    if kv.1 == oldPropertyName then
      (newPropertyName,
        (kv.2.setName newPropertyName).setDescription
          (some ("Reference to " ++ newName)))
    else
      (kv.1, kv.2.setDescription (some ("Reference to " ++ newName)))
  else kv

/-- `updateReferencesOnEntityRename(entityId, oldName, newName, data)`. -/
def updateReferencesOnEntityRename (entityId oldName newName : String)
    (data : DiagramData) : DiagramData :=
  let oldPropertyName := toCamelCase oldName
  let newPropertyName := toCamelCase newName
  let updatedEntities := data.entities.map (fun entity =>
    { entity with
      properties := rebuildProps
        (renameStep entityId oldPropertyName newPropertyName newName)
        entity.properties })
  { data with entities := updatedEntities,
              relationships := data.relationships }

end ReferenceManager

/-! ## Layout Engine (`src/utils/layoutUtils.ts`) -/

/-- `LayoutOptions` with all-optional fields; per-strategy defaults are
applied by each strategy (`{}` supplies no field). -/
structure LayoutOptions where
  levelSpacing : Option JsNum := none
  entitySpacing : Option JsNum := none
  startX : Option JsNum := none
  startY : Option JsNum := none

/-- `Math.ceil(Math.sqrt(n))`: the least `k` with `n ≤ k * k` (IEEE square
root and ceiling agree with this on every realistic entity count). -/
def natCeilSqrt (n : Nat) : Nat :=
  (List.range (n + 1)).findIdx (fun k => n ≤ k * k)

/-- The JS pattern
`const i = arr.findIndex(e => e.id === id); if (i !== -1) arr[i] = {...arr[i], position}`
shared by the grid layout and `positionEntitiesByReferenceDepth`. -/
def assignPos (l : List Entity) (targetId : String) (p : Position) :
    List Entity :=
  match l.findIdx? (fun e => e.id == targetId) with
  | some idx =>
    match l.get? idx with
    | some cur => l.set idx { cur with position := p }
    | none => l
  | none => l

/-- `LayoutEngine.applyGridLayout`. -/
def applyGridLayout (entities : List Entity) (options : LayoutOptions) :
    List Entity :=
  let entitySpacing := options.entitySpacing.getD 400
  let startX := options.startX.getD 100
  let startY := options.startY.getD 100
  let cols := natCeilSqrt entities.length
  entities.enum.foldl (fun updated ie =>
    let index := ie.1
    let entity := ie.2
    assignPos updated entity.id
      { x := startX + ((index % cols : Nat) : JsNum) * entitySpacing,
        y := startY + ((index / cols : Nat) : JsNum) * entitySpacing })
    entities

/-- The ordered pairs `(entities[i], entities[j])`, `i < j`, in the order the
nested repulsion loops of `applyForceDirectedLayout` visit them. -/
def offDiagPairs {α : Type} : List α → List (α × α)
  | [] => []
  | x :: rest => rest.map (fun y => (x, y)) ++ offDiagPairs rest

/-- One force-directed iteration (index `i`): repulsion over all entity
pairs, attraction along every relationship, then displacement capped by the
cooling temperature.  The non-null `Map.get(...)!` lookups on relationship
endpoints throw in JS when the endpoint is not an entity id; this is the
`Option`. -/
def fdIteration (sqrtFn : JsNum → JsNum) (entities : List Entity)
    (relationships : List Relationship) (k : JsNum) (i : Nat)
    (positions : List (String × Position)) :
    Option (List (String × Position)) := do
  let c : JsNum := 1 / 10
  let forces0 := entities.foldl
    (fun fs e => mapSet fs e.id ((0 : JsNum), (0 : JsNum))) []
  let forces1 ← (offDiagPairs entities).foldlM (fun fs pr => do
    let pos1 ← mapGet positions pr.1.id
    let pos2 ← mapGet positions pr.2.id
    let dx := pos1.x - pos2.x
    let dy := pos1.y - pos2.y
    let d0 := sqrtFn (dx * dx + dy * dy)
    let distance := if d0 == 0 then 1 else d0
    let force := (k * k) / distance
    let fx := (dx / distance) * force
    let fy := (dy / distance) * force
    let f1 ← mapGet fs pr.1.id
    let fs1 := mapSet fs pr.1.id (f1.1 + fx, f1.2 + fy)
    let f2 ← mapGet fs1 pr.2.id
    pure (mapSet fs1 pr.2.id (f2.1 - fx, f2.2 - fy))) forces0
  let forces2 ← relationships.foldlM (fun fs rel => do
    let pos1 ← mapGet positions rel.source
    let pos2 ← mapGet positions rel.target
    let dx := pos2.x - pos1.x
    let dy := pos2.y - pos1.y
    let d0 := sqrtFn (dx * dx + dy * dy)
    let distance := if d0 == 0 then 1 else d0
    let force := (distance * distance) / k
    let fx := (dx / distance) * force
    let fy := (dy / distance) * force
    let f1 ← mapGet fs rel.source
    let fs1 := mapSet fs rel.source (f1.1 + fx, f1.2 + fy)
    let f2 ← mapGet fs1 rel.target
    pure (mapSet fs1 rel.target (f2.1 - fx, f2.2 - fy))) forces1
  let temperature := c * (1 - (i : JsNum) / 100)
  entities.foldlM (fun ps e => do
    let force ← mapGet forces2 e.id
    let pos ← mapGet ps e.id
    let displacement := sqrtFn (force.1 * force.1 + force.2 * force.2)
    if (0 : JsNum) < displacement then
      pure (mapSet ps e.id
        { x := pos.x + (force.1 / displacement) * JsNum.jmin displacement temperature,
          y := pos.y + (force.2 / displacement) * JsNum.jmin displacement temperature })
    else
      pure ps) positions

/-- `LayoutEngine.applyForceDirectedLayout`.  `sqrtFn` stands for
`Math.sqrt` (kept abstract: its IEEE values are irrational). -/
def applyForceDirectedLayout (sqrtFn : JsNum → JsNum) (entities : List Entity)
    (relationships : List Relationship) (options : LayoutOptions) :
    Option (List Entity) :=
  let levelSpacing := options.levelSpacing.getD 400
  let entitySpacing := options.entitySpacing.getD 400
  let startX := options.startX.getD 100
  let startY := options.startY.getD 100
  if entities.length == 0 then some entities
  else
    let cols := natCeilSqrt entities.length
    let positions0 := entities.enum.foldl (fun ps ie =>
      mapSet ps ie.2.id
        { x := startX + ((ie.1 % cols : Nat) : JsNum) * entitySpacing,
          y := startY + ((ie.1 / cols : Nat) : JsNum) * levelSpacing }) []
    let k := sqrtFn ((400 * 400) / (entities.length : JsNum))
    match (List.range 100).foldlM
        (fun ps i => fdIteration sqrtFn entities relationships k i ps)
        positions0 with
    | none => none
    | some final =>
      some (entities.map (fun e =>
        { e with position := (mapGet final e.id).getD e.position }))

/-- The `referencedBy` and `references` maps of
`applyHierarchicalLayout`, in that order. -/
def buildReferenceMaps (entities : List Entity)
    (relationships : List Relationship) :
    List (String × List String) × List (String × List String) :=
  let init := entities.foldl (fun st e =>
    (mapSet st.1 e.id ([] : List String), mapSet st.2 e.id ([] : List String)))
    (([] : List (String × List String)), ([] : List (String × List String)))
  relationships.foldl (fun st rel =>
    if rel.type == "reference" then
      (mapSet st.1 rel.target ((mapGet st.1 rel.target).getD [] ++ [rel.source]),
       mapSet st.2 rel.source ((mapGet st.2 rel.source).getD [] ++ [rel.target]))
    else st) init

/-- `depthGroups` update: `if (!m.has(d)) m.set(d, []); m.get(d).push(id)`. -/
def groupsAdd (gs : List (Nat × List String)) (depth : Nat) (id : String) :
    List (Nat × List String) :=
  if gs.any (fun g => g.1 == depth) then
    gs.map (fun g => if g.1 == depth then (g.1, g.2 ++ [id]) else g)
  else gs ++ [(depth, [id])]

/-- The BFS loop of `applyHierarchicalLayout`, computing `referenceDepth`
(insertion-ordered) and `depthGroups`.  `fuel` bounds the number of queue
pops; the JS loop pops at most (initial queue length + number of reference
edges) times, so any fuel at least `entities + relationships + 1` runs the
loop to completion. -/
def bfsDepths (references : List (String × List String)) :
    Nat → List (String × Nat) → List (String × Nat) →
    List (Nat × List String) →
    List (String × Nat) × List (Nat × List String)
  | 0, _, rd, gs => (rd, gs)
  | _ + 1, [], rd, gs => (rd, gs)
  | fuel + 1, (id, depth) :: rest, rd, gs =>
    if rd.any (fun x => x.1 == id) then bfsDepths references fuel rest rd gs
    else
      let rd' := rd ++ [(id, depth)]
      let gs' := groupsAdd gs depth id
      let referencedEntities := (mapGet references id).getD []
      let newQueue := rest ++
        (referencedEntities.filter (fun rid =>
          !(rd'.any (fun x => x.1 == rid)))).map (fun rid => (rid, depth + 1))
      bfsDepths references fuel newQueue rd' gs'

/-- The "entities that weren't reached" pass: each still-unassigned entity is
put at `Math.max(...depths, -1) + 1`, recomputed as the map grows. -/
def addUnreached (entities : List Entity)
    (st : List (String × Nat) × List (Nat × List String)) :
    List (String × Nat) × List (Nat × List String) :=
  entities.foldl (fun st e =>
    if st.1.any (fun x => x.1 == e.id) then st
    else
      let md1 : Nat :=
        match st.1 with
        | [] => 0
        | _ => (st.1.map (fun x => x.2)).foldl Nat.max 0 + 1
      (st.1 ++ [(e.id, md1)], groupsAdd st.2 md1 e.id)) st

/-- The `referenceDepth` map and `depthGroups` produced by
`applyHierarchicalLayout`'s BFS (roots = entities never referenced),
including the unreachable-entity pass. -/
def hierarchicalDepthInfo (entities : List Entity)
    (relationships : List Relationship) :
    List (String × Nat) × List (Nat × List String) :=
  let maps := buildReferenceMaps entities relationships
  let rootNodes := entities.filter (fun e =>
    ((mapGet maps.1 e.id).getD []).length == 0)
  let queue0 := rootNodes.map (fun e => (e.id, 0))
  let fuel := entities.length + relationships.length + 1
  addUnreached entities (bfsDepths maps.2 fuel queue0 [] [])

/-- `LayoutEngine.positionEntitiesByReferenceDepth`: one column per depth at
`startX + depth * levelSpacing`, vertically centered around `startY`. -/
def positionEntitiesByReferenceDepth (entities : List Entity)
    (depthGroups : List (Nat × List String))
    (levelSpacing entitySpacing startX startY : JsNum) : List Entity :=
  depthGroups.foldl (fun updated g =>
    let entitiesInDepth := g.2.length
    let columnX := startX + (g.1 : JsNum) * levelSpacing
    let totalHeight := ((entitiesInDepth : JsNum) - 1) * entitySpacing
    let columnStartY := startY - totalHeight / 2
    g.2.enum.foldl (fun upd ie =>
      assignPos upd ie.2
        { x := columnX, y := columnStartY + (ie.1 : JsNum) * entitySpacing })
      updated) entities

/-- `LayoutEngine.applyHierarchicalLayout`: grid fallback when there are no
relationships, force-directed fallback when every entity is referenced,
else depth columns. -/
def applyHierarchicalLayout (sqrtFn : JsNum → JsNum) (entities : List Entity)
    (relationships : List Relationship) (options : LayoutOptions) :
    Option (List Entity) :=
  let levelSpacing := options.levelSpacing.getD 800
  let entitySpacing := options.entitySpacing.getD 200
  let startX := options.startX.getD 100
  let startY := options.startY.getD 100
  if entities.length == 0 then some entities
  else if relationships.length == 0 then
    some (applyGridLayout entities options)
  else
    let maps := buildReferenceMaps entities relationships
    let rootNodes := entities.filter (fun e =>
      ((mapGet maps.1 e.id).getD []).length == 0)
    if rootNodes.length == 0 then
      applyForceDirectedLayout sqrtFn entities relationships options
    else
      let info := hierarchicalDepthInfo entities relationships
      some (positionEntitiesByReferenceDepth entities info.2
        levelSpacing entitySpacing startX startY)

/-- `applyLayoutToDiagram`: dispatch on the strategy string, with the
source's `default` case returning the entities unchanged. -/
def applyLayoutToDiagram (sqrtFn : JsNum → JsNum) (entities : List Entity)
    (relationships : List Relationship) (layoutType : String)
    (options : LayoutOptions) : Option (List Entity) :=
  if layoutType == "hierarchical" then
    applyHierarchicalLayout sqrtFn entities relationships options
  else if layoutType == "force-directed" then
    applyForceDirectedLayout sqrtFn entities relationships options
  else if layoutType == "grid" then
    some (applyGridLayout entities options)
  else
    some entities

/-! ## JSON documents (importer input / exporter output) -/

/-- Plain JSON values, plus `jsUndefined` for JS `undefined` (a field assigned an
`undefined` value, e.g. `description: property.description` with no
description).  Objects are insertion-ordered field lists. -/
inductive Json where
  | str (s : String)
  | num (q : JsNum)
  | bool (b : Bool)
  | null
  | jsUndefined
  | arr (elems : List Json)
  | obj (fields : List (String × Json))

namespace Json

/-- JS property read `j.k` / `j?.k`. -/
def getField : Json → String → Option Json
  | .obj fs, k => recGet fs k
  | _, _ => none

/-- `Object.entries(j)` for the object case (non-objects are not exercised
by the verified claims and yield `[]`). -/
def objFields : Json → List (String × Json)
  | .obj fs => fs
  | _ => []

end Json

/-- JS truthiness of a JSON value. -/
def jsTruthy : Json → Bool
  | .str s => !(s == "")
  | .num q => !(q == 0)
  | .bool b => b
  | .null => false
  | .jsUndefined => false
  | .arr _ => true
  | .obj _ => true

/-- `o || d` for an optional JSON value. -/
def jsOr (o : Option Json) (d : Json) : Json :=
  match o with
  | some v => if jsTruthy v then v else d
  | none => d

/-- `s || d` for an optional string (the empty string is falsy). -/
def jsStrOr (o : Option String) (d : String) : String :=
  match o with
  | some s => if s == "" then d else s
  | none => d

/-- A string-valued JSON field (`j.k` when a string; the claims exercise
only string-valued occurrences). -/
def jsonStrField (j : Json) (k : String) : Option String :=
  match j.getField k with
  | some (.str s) => some s
  | _ => none

/-- `j.k || d` where the field is expected to hold a string. -/
def jsonStrOr (o : Option Json) (d : String) : String :=
  match o with
  | some (.str s) => if s == "" then d else s
  | _ => d

/-- An optional string rendered as a JSON value (`undefined` when absent). -/
def optStrJson : Option String → Json
  | some s => .str s
  | none => .jsUndefined

/-! ## Schema Exporter (`src/utils/schemaExporter.ts`) -/

namespace SchemaExporter

mutual

/-- `SchemaExporter.convertPropertyToOpenAPI` together with the
`Object.entries(property.properties)` loop of its `object` branch. -/
def convertPropertyToOpenAPI (data : DiagramData) : Property → Json
  | .mk _ ty ds _ _ rid it psOpt =>
    let base : List (String × Json) := [("description", optStrJson ds)]
    if ty == "reference" then
      match data.entities.find? (fun e => some e.id == rid) with
      | some referencedEntity =>
        .obj (recSet base "$ref"
          (.str ("#/components/schemas/" ++ referencedEntity.name)))
      | none =>
        .obj (recSet (recSet base "type" (.str "string")) "description"
          (.str ((ds.getD "") ++ " (Reference entity not found)")))
    else if ty == "array" then
      let base1 := recSet base "type" (.str "array")
      let itemsJson :=
        match it with
        | some itp =>
          if itp.type == "reference" then
            match data.entities.find? (fun e =>
                some e.id == itp.referenceEntityId) with
            | some re =>
              Json.obj [("$ref", .str ("#/components/schemas/" ++ re.name))]
            | none => Json.obj [("type", .str "string")]
          else Json.obj [("type", .str itp.type)]
        | none => Json.obj [("type", .str "string")]
      .obj (recSet base1 "items" itemsJson)
    else if ty == "object" then
      let base1 := recSet base "type" (.str "object")
      match psOpt with
      | some ps =>
        .obj (recSet base1 "properties"
          (.obj (convertPropsToOpenAPI data [] ps)))
      | none => .obj base1
    else
      .obj (recSet base "type" (.str ty))

def convertPropsToOpenAPI (data : DiagramData) (acc : List (String × Json)) :
    List (String × Property) → List (String × Json)
  | [] => acc
  | kv :: rest =>
    convertPropsToOpenAPI data
      (recSet acc kv.1 (convertPropertyToOpenAPI data kv.2)) rest

end

mutual

/-- `SchemaExporter.convertPropertyToNoSQL` (note: no fallback branch when a
`reference` property fails to resolve). -/
def convertPropertyToNoSQL (data : DiagramData) : Property → Json
  | .mk _ ty ds rq _ rid it psOpt =>
    let base : List (String × Json) :=
      [("type", .str ty), ("description", optStrJson ds),
       ("required", .bool (rq.getD false))]
    if ty == "reference" then
      match data.entities.find? (fun e => some e.id == rid) with
      | some referencedEntity =>
        .obj (recSet (recSet base "reference" (.str referencedEntity.name))
          "type" (.str "reference"))
      | none => .obj base
    else if ty == "array" then
      let base1 := recSet base "type" (.str "array")
      match it with
      | some itp =>
        if itp.type == "reference" then
          match data.entities.find? (fun e =>
              some e.id == itp.referenceEntityId) with
          | some re =>
            .obj (recSet base1 "items"
              (.obj [("type", .str "reference"), ("reference", .str re.name)]))
          | none =>
            .obj (recSet base1 "items" (.obj [("type", .str itp.type)]))
        else .obj (recSet base1 "items" (.obj [("type", .str itp.type)]))
      | none => .obj base1
    else if ty == "object" then
      let base1 := recSet base "type" (.str "object")
      match psOpt with
      | some ps =>
        .obj (recSet base1 "properties" (.obj (convertPropsToNoSQL data [] ps)))
      | none => .obj base1
    else
      .obj base

def convertPropsToNoSQL (data : DiagramData) (acc : List (String × Json)) :
    List (String × Property) → List (String × Json)
  | [] => acc
  | kv :: rest =>
    convertPropsToNoSQL data
      (recSet acc kv.1 (convertPropertyToNoSQL data kv.2)) rest

end

mutual

/-- `SchemaExporter.convertPropertyToJSONSchema` (as the OpenAPI conversion
but `$ref` paths point into `#/definitions/`). -/
def convertPropertyToJSONSchema (data : DiagramData) : Property → Json
  | .mk _ ty ds _ _ rid it psOpt =>
    let base : List (String × Json) := [("description", optStrJson ds)]
    if ty == "reference" then
      match data.entities.find? (fun e => some e.id == rid) with
      | some referencedEntity =>
        .obj (recSet base "$ref" (.str ("#/definitions/" ++ referencedEntity.name)))
      | none =>
        .obj (recSet (recSet base "type" (.str "string")) "description"
          (.str ((ds.getD "") ++ " (Reference entity not found)")))
    else if ty == "array" then
      let base1 := recSet base "type" (.str "array")
      let itemsJson :=
        match it with
        | some itp =>
          if itp.type == "reference" then
            match data.entities.find? (fun e =>
                some e.id == itp.referenceEntityId) with
            | some re => Json.obj [("$ref", .str ("#/definitions/" ++ re.name))]
            | none => Json.obj [("type", .str "string")]
          else Json.obj [("type", .str itp.type)]
        | none => Json.obj [("type", .str "string")]
      .obj (recSet base1 "items" itemsJson)
    else if ty == "object" then
      let base1 := recSet base "type" (.str "object")
      match psOpt with
      | some ps =>
        .obj (recSet base1 "properties"
          (.obj (convertPropsToJSONSchema data [] ps)))
      | none => .obj base1
    else
      .obj (recSet base "type" (.str ty))

def convertPropsToJSONSchema (data : DiagramData)
    (acc : List (String × Json)) :
    List (String × Property) → List (String × Json)
  | [] => acc
  | kv :: rest =>
    convertPropsToJSONSchema data
      (recSet acc kv.1 (convertPropertyToJSONSchema data kv.2)) rest

end

/-- `SchemaExporter.convertEntityToOpenAPISchema`: the `required` array is
rebuilt from each property's local `required` flag. -/
def convertEntityToOpenAPISchema (data : DiagramData) (entity : Entity) :
    Json :=
  let schema : List (String × Json) :=
    [("type", .str "object"), ("description", optStrJson entity.description)]
  if entity.properties.length > 0 then
    let props := entity.properties.foldl (fun acc kv =>
      recSet acc kv.1 (convertPropertyToOpenAPI data kv.2)) []
    let required := entity.properties.foldl (fun acc kv =>
      if kv.2.required.getD false then acc ++ [Json.str kv.1] else acc) []
    .obj (recSet (recSet schema "properties" (.obj props)) "required"
      (.arr required))
  else .obj schema

/-- `SchemaExporter.convertEntityToNoSQLSchema`. -/
def convertEntityToNoSQLSchema (data : DiagramData) (entity : Entity) :
    Json :=
  let fields := entity.properties.foldl (fun acc kv =>
    recSet acc kv.1 (convertPropertyToNoSQL data kv.2)) []
  .obj [("collection", .str entity.name),
        ("description", optStrJson entity.description),
        ("fields", .obj fields)]

/-- `SchemaExporter.convertEntityToJSONSchema`. -/
def convertEntityToJSONSchema (data : DiagramData) (entity : Entity) :
    Json :=
  let schema : List (String × Json) :=
    [("type", .str "object"), ("description", optStrJson entity.description)]
  if entity.properties.length > 0 then
    let props := entity.properties.foldl (fun acc kv =>
      recSet acc kv.1 (convertPropertyToJSONSchema data kv.2)) []
    let required := entity.properties.foldl (fun acc kv =>
      if kv.2.required.getD false then acc ++ [Json.str kv.1] else acc) []
    .obj (recSet (recSet schema "properties" (.obj props)) "required"
      (.arr required))
  else .obj schema

/-- `SchemaExporter.exportToOpenAPI`. -/
def exportToOpenAPI (data : DiagramData) : Json :=
  let schemas := data.entities.foldl (fun acc e =>
    recSet acc e.name (convertEntityToOpenAPISchema data e)) []
  .obj [("openapi", .str "3.0.0"),
        ("info", .obj
          [("title", .str (jsStrOr (data.metadata.bind (fun m => m.title))
              "Generated Schema")),
           ("description", .str (jsStrOr
              (data.metadata.bind (fun m => m.description))
              "Schema generated from NoSQL diagram")),
           ("version", .str (jsStrOr (data.metadata.bind (fun m => m.version))
              "1.0.0"))]),
        ("components", .obj [("schemas", .obj schemas)])]

/-- `SchemaExporter.exportToNoSQL`. -/
def exportToNoSQL (data : DiagramData) : Json :=
  let collections := data.entities.foldl (fun acc e =>
    recSet acc e.name (convertEntityToNoSQLSchema data e)) []
  .obj [("database", .obj
    [("name", .str (jsStrOr (data.metadata.bind (fun m => m.title))
        "Generated Database")),
     ("description", .str (jsStrOr
        (data.metadata.bind (fun m => m.description))
        "Database schema generated from NoSQL diagram")),
     ("version", .str (jsStrOr (data.metadata.bind (fun m => m.version))
        "1.0.0")),
     ("collections", .obj collections)])]

/-- `SchemaExporter.exportToJSONSchema`. -/
def exportToJSONSchema (data : DiagramData) : Json :=
  let schemas := data.entities.foldl (fun acc e =>
    recSet acc e.name (convertEntityToJSONSchema data e)) []
  .obj [("$schema", .str "http://json-schema.org/draft-07/schema#"),
        ("title", .str (jsStrOr (data.metadata.bind (fun m => m.title))
            "Generated Schema")),
        ("description", .str (jsStrOr
            (data.metadata.bind (fun m => m.description))
            "Schema generated from NoSQL diagram")),
        ("version", .str (jsStrOr (data.metadata.bind (fun m => m.version))
            "1.0.0")),
        ("definitions", .obj schemas)]

end SchemaExporter

/-! ## Schema Importer (`src/utils/schemaParser.ts`) -/

namespace SchemaParser

/-- The string content of a JSON value (`$ref` values are strings in every
exercised input; JS would throw on `split` for non-strings). -/
def jsonAsString : Json → String
  | .str s => s
  | _ => ""

/-- `str.split(sep)` for a one-character separator, on character lists
(structural stand-in for `String.split`). -/
def splitCharAux (sep : Char) : List Char → List Char → List String
  | [], cur => [⟨cur.reverse⟩]
  | c :: rest, cur =>
    if c == sep then ⟨cur.reverse⟩ :: splitCharAux sep rest []
    else splitCharAux sep rest (c :: cur)

/-- `ref.split('/')`. -/
def splitChar (sep : Char) (s : String) : List String :=
  splitCharAux sep s.data []

/-- `SchemaParser.extractRefName`: last `/`-separated component of
`#/components/schemas/EntityName`. -/
def extractRefName (ref : String) : String :=
  (splitChar (Char.ofNat 47) ref).getLastD ""

/-- A JSON array of strings (the `required` list; non-string members are
not exercised). -/
def jsonStrList : Json → List String
  | .arr xs => xs.filterMap (fun j =>
      match j with
      | .str s => some s
      | _ => none)
  | _ => []

/-- A value found under a key of an association list is smaller than the
list (for the importer's termination measure). -/
theorem sizeOf_recGet_json {fs : List (String × Json)} {k : String} {v : Json}
    (h : recGet fs k = some v) : sizeOf v < sizeOf fs := by
  unfold recGet at h
  cases hf : fs.find? (fun kv => kv.1 == k) with
  | none => rw [hf] at h; simp at h
  | some kv =>
    rw [hf] at h
    simp at h
    subst h
    have hmem := List.mem_of_find?_eq_some hf
    have h1 : sizeOf kv < sizeOf fs := List.sizeOf_lt_of_mem hmem
    cases kv with
    | mk a b => simp at h1 ⊢; omega

/-- A field of a JSON object is smaller than the object. -/
theorem sizeOf_getField {j : Json} {k : String} {v : Json}
    (h : j.getField k = some v) : sizeOf v < sizeOf j := by
  cases j <;> simp [Json.getField] at h
  case obj fs =>
    have := sizeOf_recGet_json h
    simp
    omega

/-- `objFields` does not grow a JSON value. -/
theorem sizeOf_objFields_le (j : Json) : sizeOf (Json.objFields j) ≤ sizeOf j := by
  cases j <;> simp [Json.objFields] <;> omega

/-- `SchemaParser.parseProperty`: base record with `required: false`, then
the `$ref`, `array`-items and nested-`object` adjustments, in source
order.  The recursion into nested object properties is driven by a fuel
that strictly exceeds the nesting depth (see `parseProperty`); the fuel-0
base case is unreachable from `parseProperty` and returns the base record
of an empty definition. -/
def parsePropertyF : Nat → String → Json → Property
  | 0, name, _ => .mk name "any" none (some false) none none none none
  | fuel + 1, name, propDef =>
  let base : Property := .mk name (jsonStrOr (propDef.getField "type") "any")
    (jsonStrField propDef "description") (some false) none none none none
  let p1 :=
    match propDef.getField "$ref" with
    | some r =>
      if jsTruthy r then
        (base.setRef (some (extractRefName (jsonAsString r)))).setType
          "reference"
      else base
    | none => base
  let typeIsArray :=
    match propDef.getField "type" with
    | some (.str s) => s == "array"
    | _ => false
  let p2 :=
    match propDef.getField "items" with
    | some itj =>
      if typeIsArray && jsTruthy itj then
        let itemsProp :=
          match itj.getField "$ref" with
          | some r =>
            if jsTruthy r then
              Property.mk "item" "reference" none none
                (some (extractRefName (jsonAsString r))) none none none
            else
              Property.mk "item" (jsonStrOr (itj.getField "type") "any")
                none none none none none none
          | none =>
            Property.mk "item" (jsonStrOr (itj.getField "type") "any")
              none none none none none none
        (p1.setType "array").setItems (some itemsProp)
      else p1
    | none => p1
  let typeIsObject :=
    match propDef.getField "type" with
    | some (.str s) => s == "object"
    | _ => false
  match propDef.getField "properties" with
  | some pv =>
    if typeIsObject && jsTruthy pv then
      (p2.setType "object").setProperties
        (some ((Json.objFields pv).foldl (fun acc kv =>
          recSet acc kv.1 (parsePropertyF fuel kv.1 kv.2)) []))
    else p2
  | none => p2

mutual

/-- Structural size of a JSON value (computable fuel source). -/
def jsize : Json → Nat
  | .str _ => 1
  | .num _ => 1
  | .bool _ => 1
  | .null => 1
  | .jsUndefined => 1
  | .arr xs => 1 + jsizeArr xs
  | .obj fs => 1 + jsizeFields fs

def jsizeArr : List Json → Nat
  | [] => 0
  | j :: rest => jsize j + jsizeArr rest

def jsizeFields : List (String × Json) → Nat
  | [] => 0
  | kv :: rest => jsize kv.2 + jsizeFields rest

end

/-- `SchemaParser.parseProperty`: fuelled by the size of the definition,
which strictly exceeds the nesting depth of its `properties` chains (each
nesting level sits strictly inside the previous definition), so the fuel
never runs out. -/
def parseProperty (name : String) (propDef : Json) : Property :=
  parsePropertyF (jsize propDef) name propDef

/-- The `parseProperties` loop over `Object.entries`. -/
def parsePropertiesList (l : List (String × Json))
    (acc : List (String × Property)) : List (String × Property) :=
  l.foldl (fun acc kv => recSet acc kv.1 (parseProperty kv.1 kv.2)) acc

/-- The color palette cycled through in definition-encounter order. -/
def COLORS : List String :=
  ["#3b82f6", "#10b981", "#f59e0b", "#ef4444",
   "#8b5cf6", "#06b6d4", "#84cc16", "#f97316"]

/-- The mutable `SchemaParser` instance state: entities, relationships, the
name→entity map (entity object identity represented by the unique generated
id), the color index, and the `uuidv4()` fresh-name counter. -/
structure ParserState where
  entities : List Entity
  relationships : List Relationship
  entityMap : List (String × String)
  colorIndex : Nat
  counter : Nat

/-- The `uuidv4()` supply: the `n`-th generated id. -/
def uuidName (n : Nat) : String := "uuid-" ++ toString n

/-- `SchemaParser.createEntity`. -/
def createEntity (st : ParserState) (name : String) (schemaDef : Json) :
    ParserState :=
  let entityId := uuidName st.counter
  let entity : Entity :=
    { id := entityId,
      name := name,
      type := jsonStrOr (schemaDef.getField "type") "object",
      description := jsonStrField schemaDef "description",
      properties := parsePropertiesList
        (Json.objFields (jsOr (schemaDef.getField "properties") (.obj []))) [],
      required := some (jsonStrList
        (jsOr (schemaDef.getField "required") (.arr []))),
      position := { x := 0, y := 0 },
      color := some ((COLORS.get? (st.colorIndex % COLORS.length)).getD "") }
  { st with entities := st.entities ++ [entity],
            entityMap := mapSet st.entityMap name entityId,
            colorIndex := st.colorIndex + 1,
            counter := st.counter + 1 }

/-- `SchemaParser.createRelationship`: resolves the target by name again and
appends a `reference` relationship. -/
def createRelationship (st : ParserState) (sourceId targetName : String)
    (label : Option String) : ParserState :=
  match mapGet st.entityMap targetName with
  | none => st
  | some targetId =>
    { st with
      relationships := st.relationships ++
        [{ id := uuidName st.counter, source := sourceId, target := targetId,
           type := "reference", label := label }],
      counter := st.counter + 1 }

/-- The per-property body of `SchemaParser.createRelationships`: resolve
`property.ref` and `property.items?.ref` against the entity map, set the
corresponding `referenceEntityId`s and append relationships. -/
def processRefProperty (st : ParserState) (entityId : String)
    (property : Property) : Property × ParserState :=
  let step1 : Property × ParserState :=
    match property.ref with
    | some refName =>
      if !(refName == "") then
        match mapGet st.entityMap refName with
        | some targetId =>
          (property.setRefId (some targetId),
            createRelationship st entityId refName (some property.name))
        | none => (property, st)
      else (property, st)
    | none => (property, st)
  let property1 := step1.1
  let st1 := step1.2
  match property1.items with
  | some it =>
    (match it.ref with
     | some r =>
       if !(r == "") then
         match mapGet st1.entityMap r with
         | some targetId =>
           (property1.setItems (some (it.setRefId (some targetId))),
             createRelationship st1 entityId r
               (some (property1.name ++ "[]")))
         | none => (property1, st1)
       else (property1, st1)
     | none => (property1, st1))
  | none => (property1, st1)

/-- `SchemaParser.createRelationships` for one top-level definition name. -/
def createRelationshipsFor (st : ParserState) (entityName : String) :
    ParserState :=
  match mapGet st.entityMap entityName with
  | none => st
  | some eid =>
    match st.entities.find? (fun e => e.id == eid) with
    | none => st
    | some entity =>
      let result := entity.properties.foldl (fun acc kv =>
        let pr := processRefProperty acc.2 eid kv.2
        (recSet acc.1 kv.1 pr.1, pr.2))
        (([] : List (String × Property)), st)
      { result.2 with
        entities := result.2.entities.map (fun e =>
          if e.id == eid then { e with properties := result.1 } else e) }

/-- `ParsedSchema` from `src/types/index.ts` (metadata fields are plain
strings there). -/
structure ParsedSchema where
  entities : List Entity
  relationships : List Relationship
  title : String
  description : String
  version : String

/-- `SchemaParser.parseOpenAPI`: entity pass, relationship pass, then the
hierarchical layout pass. -/
def parseOpenAPI (sqrtFn : JsNum → JsNum) (schema : Json) : Option ParsedSchema :=
  let schemasJson :=
    match schema.getField "components" with
    | some c => c.getField "schemas"
    | none => none
  let schemas := Json.objFields (jsOr schemasJson (.obj []))
  let st0 : ParserState := ⟨[], [], [], 0, 0⟩
  let st1 := schemas.foldl (fun st nv => createEntity st nv.1 nv.2) st0
  let st2 := schemas.foldl (fun st nv => createRelationshipsFor st nv.1) st1
  match applyLayoutToDiagram sqrtFn st2.entities st2.relationships
      "hierarchical" {} with
  | none => none
  | some laidOut =>
    some { entities := laidOut,
           relationships := st2.relationships,
           title := jsStrOr
             (match schema.getField "info" with
              | some i => jsonStrField i "title"
              | none => none) "Untitled Schema",
           description := jsStrOr
             (match schema.getField "info" with
              | some i => jsonStrField i "description"
              | none => none) "",
           version := jsStrOr
             (match schema.getField "info" with
              | some i => jsonStrField i "version"
              | none => none) "1.0.0" }

/-- The Diagram obtained from a parsed schema (what the application hands to
the exporters after an import). -/
def toDiagramData (ps : ParsedSchema) : DiagramData :=
  { entities := ps.entities,
    relationships := ps.relationships,
    metadata := some { title := some ps.title,
                       description := some ps.description,
                       version := some ps.version } }

end SchemaParser

/-! ## Basic lemmas about the record helpers -/

@[simp] theorem Property.type_setType (p : Property) (t : String) :
    (p.setType t).type = t := by cases p <;> rfl

@[simp] theorem Property.type_setRefId (p : Property) (r : Option String) :
    (p.setRefId r).type = p.type := by cases p <;> rfl

@[simp] theorem Property.type_setDescription (p : Property)
    (d : Option String) : (p.setDescription d).type = p.type := by
  cases p <;> rfl

@[simp] theorem Property.type_setName (p : Property) (n : String) :
    (p.setName n).type = p.type := by cases p <;> rfl

@[simp] theorem Property.refId_setRefId (p : Property) (r : Option String) :
    (p.setRefId r).referenceEntityId = r := by cases p <;> rfl

@[simp] theorem Property.refId_setType (p : Property) (t : String) :
    (p.setType t).referenceEntityId = p.referenceEntityId := by
  cases p <;> rfl

@[simp] theorem Property.refId_setDescription (p : Property)
    (d : Option String) :
    (p.setDescription d).referenceEntityId = p.referenceEntityId := by
  cases p <;> rfl

@[simp] theorem Property.refId_setName (p : Property) (n : String) :
    (p.setName n).referenceEntityId = p.referenceEntityId := by
  cases p <;> rfl

@[simp] theorem Property.required_setType (p : Property) (t : String) :
    (p.setType t).required = p.required := by cases p <;> rfl

@[simp] theorem Property.required_setRefId (p : Property)
    (r : Option String) : (p.setRefId r).required = p.required := by
  cases p <;> rfl

@[simp] theorem Property.required_setRef (p : Property) (r : Option String) :
    (p.setRef r).required = p.required := by cases p <;> rfl

@[simp] theorem Property.required_setItems (p : Property)
    (it : Option Property) : (p.setItems it).required = p.required := by
  cases p <;> rfl

@[simp] theorem Property.required_setProperties (p : Property)
    (ps : Option (List (String × Property))) :
    (p.setProperties ps).required = p.required := by cases p <;> rfl

/-- A member of `recSet m k v` is either the assigned pair or a member of
`m`. -/
theorem mem_recSet {α : Type} {m : List (String × α)} {k : String} {v : α}
    {kv : String × α} (h : kv ∈ recSet m k v) : kv = (k, v) ∨ kv ∈ m := by
  unfold recSet at h
  by_cases hc : m.any (fun kv => kv.1 == k)
  · rw [if_pos hc] at h
    rcases List.mem_map.mp h with ⟨kv0, hkv0, heq⟩
    by_cases hk : kv0.1 == k
    · left; rw [if_pos hk] at heq; exact heq.symm
    · right; rw [if_neg hk] at heq; exact heq ▸ hkv0
  · rw [if_neg hc] at h
    rcases List.mem_append.mp h with h1 | h1
    · right; exact h1
    · left; simpa using h1

/-- Overwriting an existing key: the first matching entry is the new
pair. -/
theorem find_overwrite {α : Type} (m : List (String × α)) (k : String)
    (v : α) (hc : m.any (fun kv => kv.1 == k) = true) :
    (m.map (fun kv => if kv.1 == k then (k, v) else kv)).find?
        (fun kv => kv.1 == k) = some (k, v) := by
  induction m with
  | nil => simp at hc
  | cons a rest ih =>
    rw [List.map_cons]
    by_cases ha : (a.1 == k) = true
    · rw [if_pos ha]
      exact List.find?_cons_of_pos _ (by simp)
    · have hc' : rest.any (fun kv => kv.1 == k) = true := by
        rcases List.any_eq_true.mp hc with ⟨b, hb, hbk⟩
        rcases List.mem_cons.mp hb with h1 | h1
        · exact absurd (h1 ▸ hbk) ha
        · exact List.any_eq_true.mpr ⟨b, h1, hbk⟩
      rw [if_neg ha]
      exact (List.find?_cons_of_neg (p := fun kv : String × α => kv.1 == k) _ ha).trans
        (ih hc')

/-- Appending a fresh key: the appended pair is the first (only) match. -/
theorem find_append_new {α : Type} (m : List (String × α)) (k : String)
    (v : α) (hc : ¬m.any (fun kv => kv.1 == k) = true) :
    (m ++ [(k, v)]).find? (fun kv => kv.1 == k) = some (k, v) := by
  induction m with
  | nil =>
    rw [List.nil_append]
    exact List.find?_cons_of_pos _ (by simp)
  | cons a rest ih =>
    have ha : ¬(a.1 == k) = true := by
      intro hk
      exact hc (List.any_eq_true.mpr ⟨a, List.mem_cons_self a rest, hk⟩)
    have hc' : ¬rest.any (fun kv => kv.1 == k) = true := by
      intro hk
      rcases List.any_eq_true.mp hk with ⟨b, hb, hbk⟩
      exact hc (List.any_eq_true.mpr ⟨b, List.mem_cons_of_mem a hb, hbk⟩)
    rw [List.cons_append]
    exact (List.find?_cons_of_neg (p := fun kv : String × α => kv.1 == k) _ ha).trans
      (ih hc')

/-- Reading back the key just assigned by `recSet`. -/
theorem recGet_recSet_self {α : Type} (m : List (String × α)) (k : String)
    (v : α) : recGet (recSet m k v) k = some v := by
  unfold recSet recGet
  by_cases hc : m.any (fun kv => kv.1 == k) = true
  · rw [if_pos hc, find_overwrite m k v hc]
    rfl
  · rw [if_neg hc, find_append_new m k v hc]
    rfl

/-- Invariance of a pair predicate through the JS rebuild-by-assignment
loop: if the rewritten entries all satisfy `Q`, so does everything in the
rebuilt record. -/
theorem mem_foldl_recSet {Q : String × Property → Prop}
    (f : String × Property → String × Property) :
    ∀ (l acc : List (String × Property)),
      (∀ kv ∈ l, Q (f kv)) → (∀ kv ∈ acc, Q kv) →
      ∀ kv ∈ l.foldl (fun a kv => recSet a (f kv).1 (f kv).2) acc, Q kv := by
  intro l
  induction l with
  | nil => intro acc _ hacc; simpa using hacc
  | cons kv0 rest ih =>
    intro acc hl hacc kv hkv
    simp only [List.foldl_cons] at hkv
    refine ih _ (fun x hx => hl x (List.mem_cons_of_mem _ hx)) ?_ kv hkv
    intro x hx
    rcases mem_recSet hx with h | h
    · have hq := hl kv0 (List.mem_cons_self kv0 rest)
      rw [h]
      exact hq
    · exact hacc x h

/-- Specialization to `rebuildProps`. -/
theorem mem_rebuildProps {Q : String × Property → Prop}
    (f : String × Property → String × Property)
    (l : List (String × Property)) (hf : ∀ kv ∈ l, Q (f kv)) :
    ∀ kv ∈ ReferenceManager.rebuildProps f l, Q kv := by
  unfold ReferenceManager.rebuildProps
  exact mem_foldl_recSet f l [] hf (by intro x hx; simp at hx)

/-- `recSet` on a fresh key appends. -/
theorem recSet_of_fresh {α : Type} (m : List (String × α)) (k : String)
    (v : α) (h : ∀ kv ∈ m, ¬(kv.1 == k) = true) :
    recSet m k v = m ++ [(k, v)] := by
  unfold recSet
  rw [if_neg]
  intro hc
  rcases List.any_eq_true.mp hc with ⟨kv, hkv, hk⟩
  exact h kv hkv hk

/-- The JS property-rebuild fold is a plain `map` when the rewrite keeps
each key and the keys are pairwise distinct (as JS object keys are):
every `recSet` hits a fresh key and appends. -/
theorem foldl_recSet_eq_append
    (f : String × Property → String × Property)
    (hf : ∀ kv, (f kv).1 = kv.1) :
    ∀ (l acc : List (String × Property)),
      (∀ kv ∈ acc, ∀ kv' ∈ l, ¬kv'.1 = kv.1) →
      (l.map (fun kv => kv.1)).Nodup →
      l.foldl (fun acc kv => recSet acc (f kv).1 (f kv).2) acc =
        acc ++ l.map f := by
  intro l
  induction l with
  | nil =>
    intro acc _ _
    simp
  | cons kv0 rest ih =>
    intro acc hdisj hnodup
    rw [List.map_cons] at hnodup
    obtain ⟨hnotin, htail⟩ := List.nodup_cons.mp hnodup
    rw [List.foldl_cons]
    have hfresh : ∀ kv ∈ acc, ¬(kv.1 == (f kv0).1) = true := by
      intro kv hkv hk
      exact hdisj kv hkv kv0 (List.mem_cons_self kv0 rest)
        (by rw [← hf kv0]; exact (beq_iff_eq.mp hk).symm)
    rw [recSet_of_fresh acc (f kv0).1 (f kv0).2 hfresh]
    have hdisj' : ∀ kv ∈ acc ++ [f kv0], ∀ kv' ∈ rest, ¬kv'.1 = kv.1 := by
      intro kv hkv kv' hkv'
      rcases List.mem_append.mp hkv with h1 | h1
      · exact hdisj kv h1 kv' (List.mem_cons_of_mem _ hkv')
      · rw [List.mem_singleton] at h1
        subst h1
        rw [hf kv0]
        intro hk
        exact hnotin (hk ▸ List.mem_map.mpr ⟨kv', hkv', rfl⟩)
    rw [ih (acc ++ [f kv0]) hdisj' htail, List.append_assoc]
    rfl

/-- `rebuildProps` with a key-preserving rewrite on distinct keys is the
pointwise `map`. -/
theorem rebuildProps_eq_map (f : String × Property → String × Property)
    (hf : ∀ kv, (f kv).1 = kv.1) (l : List (String × Property))
    (hl : (l.map (fun kv => kv.1)).Nodup) :
    ReferenceManager.rebuildProps f l = l.map f := by
  unfold ReferenceManager.rebuildProps
  rw [foldl_recSet_eq_append f hf l []
    (by intro kv hkv; simp at hkv) hl]
  rfl

/-- The delete-cleanup rewrite keeps each property's key. -/
theorem cleanupStep_fst (del : String) (kv : String × Property) :
    (ReferenceManager.cleanupStep del kv).1 = kv.1 := by
  unfold ReferenceManager.cleanupStep
  split <;> rfl

/-- A member of the id-substitution map used by the Reference Manager's
entity updates is the substituted entity or an untouched original whose id
misses the substituted one. -/
theorem mem_map_subst {l : List Entity} {newE : Entity} {sid : String}
    {e : Entity}
    (h : e ∈ l.map (fun x => if x.id == sid then newE else x)) :
    e = newE ∨ (e ∈ l ∧ (e.id == sid) = false) := by
  rcases List.mem_map.mp h with ⟨x, hx, heq⟩
  by_cases hid : (x.id == sid) = true
  · left; rw [if_pos hid] at heq; exact heq.symm
  · right
    rw [if_neg hid] at heq
    exact ⟨heq ▸ hx, heq ▸ (by simpa using hid)⟩

/-- The id-substitution map keeps the entity-id sequence unchanged when the
substituted entity carries the matched id. -/
theorem map_subst_ids {l : List Entity} {newE : Entity} {sid : String}
    (hnew : newE.id = sid) :
    (l.map (fun x => if x.id == sid then newE else x)).map
        (fun e => e.id) = l.map (fun e => e.id) := by
  rw [List.map_map]
  apply List.map_congr_left
  intro x _
  by_cases hid : x.id == sid
  · simp only [Function.comp, if_pos hid]
    have := (beq_iff_eq (a := x.id) (b := sid)).mp hid
    rw [hnew, this]
  · simp only [Function.comp, if_neg hid]

/-! ## Claim C4: connect is a no-op when the derived property already
points at the target -/

/-- C4: for every Diagram and every pair of entities in it already linked by
a property under the connect-derived camel-cased name whose type is
`reference` and whose `referenceEntityId` equals the target's id, calling
`createReferenceOnConnection` again returns the input Diagram unchanged. -/
theorem connect_already_linked_noop
    (s t : Entity) (d : DiagramData) (p : Property)
    (hs : s ∈ d.entities) (ht : t ∈ d.entities)
    (hp : recGet s.properties (toCamelCase t.name) = some p)
    (htype : p.type = "reference")
    (hrid : p.referenceEntityId = some t.id) :
    ReferenceManager.createReferenceOnConnection s t d = d := by
  unfold ReferenceManager.createReferenceOnConnection
  simp only [hp, htype, hrid]
  simp

def c4p : Property :=
  .mk "user" "reference" (some "Reference to User") (some false) none
    (some "e-tgt") none none

def c4src : Entity :=
  { id := "e-src", name := "Order", type := "object",
    properties := [("user", c4p)], position := ⟨0, 0⟩ }

def c4tgt : Entity :=
  { id := "e-tgt", name := "User", type := "object", properties := [],
    position := ⟨10, 10⟩ }

def c4d : DiagramData :=
  { entities := [c4src, c4tgt],
    relationships :=
      [{ id := "r1", source := "e-src", target := "e-tgt",
         type := "reference" }] }

/-- Witness for C4 at a concrete two-entity diagram. -/
theorem connect_already_linked_noop_witness :
    ReferenceManager.createReferenceOnConnection c4src c4tgt c4d = c4d :=
  connect_already_linked_noop c4src c4tgt c4d c4p
    (by simp [c4d]) (by simp [c4d]) (by rfl) (by rfl) (by rfl)

/-! ## Claim C6: depth-hierarchical layout on a Root→Mid→Leaf chain -/

def c6Root : Entity :=
  { id := "root", name := "Root", type := "object", properties := [],
    position := ⟨0, 0⟩ }

def c6Mid : Entity :=
  { id := "mid", name := "Mid", type := "object", properties := [],
    position := ⟨0, 0⟩ }

def c6Leaf : Entity :=
  { id := "leaf", name := "Leaf", type := "object", properties := [],
    position := ⟨0, 0⟩ }

def c6Entities : List Entity := [c6Root, c6Mid, c6Leaf]

def c6Rels : List Relationship :=
  [{ id := "r1", source := "root", target := "mid", type := "reference" },
   { id := "r2", source := "mid", target := "leaf", type := "reference" }]

/-- C6: on the three-entity chain Root→Mid→Leaf of reference relationships,
the depth-hierarchical layout assigns reference depths 0, 1, 2 and
x-coordinates `startX + depth * levelSpacing` (100, 900, 1700 with the
defaults), strictly increasing from Root to Mid to Leaf. -/
theorem depth_hierarchical_chain_scenario :
    (mapGet (hierarchicalDepthInfo c6Entities c6Rels).1 "root" = some 0 ∧
     mapGet (hierarchicalDepthInfo c6Entities c6Rels).1 "mid" = some 1 ∧
     mapGet (hierarchicalDepthInfo c6Entities c6Rels).1 "leaf" = some 2) ∧
    ((applyLayoutToDiagram (fun _ => 0) c6Entities c6Rels "hierarchical"
        {}).map (fun l => l.map (fun e => (e.id, e.position.x))) =
      some [("root", 100 + 0 * 800), ("mid", 100 + 1 * 800),
            ("leaf", 100 + 2 * 800)]) ∧
    ((100 : JsNum) + 0 * 800 < 100 + 1 * 800 ∧
     (100 : JsNum) + 1 * 800 < 100 + 2 * 800) := by
  refine ⟨⟨?_, ?_, ?_⟩, ?_, ?_, ?_⟩ <;> decide

/-! ## Claim C8: exporter behavior on dangling references -/

/-- C8 (amended): for a `reference` property whose `referenceEntityId`
resolves to no entity, the OpenAPI and JSON-Schema exporters render a plain
`string` type with the explanatory description suffix and no `$ref`; the
NoSQL exporter never fails either but keeps the `type` as `reference` and
the description unchanged, emitting no `reference` name. -/
theorem dangling_reference_export_behavior
    (p : Property) (d : DiagramData)
    (hty : p.type = "reference")
    (hfind : d.entities.find?
        (fun e => some e.id == p.referenceEntityId) = none) :
    (Json.getField (SchemaExporter.convertPropertyToOpenAPI d p) "type" =
        some (.str "string") ∧
     Json.getField (SchemaExporter.convertPropertyToOpenAPI d p)
        "description" =
        some (.str ((p.description.getD "") ++
          " (Reference entity not found)")) ∧
     Json.getField (SchemaExporter.convertPropertyToOpenAPI d p) "$ref" =
        none) ∧
    (Json.getField (SchemaExporter.convertPropertyToJSONSchema d p) "type" =
        some (.str "string") ∧
     Json.getField (SchemaExporter.convertPropertyToJSONSchema d p)
        "description" =
        some (.str ((p.description.getD "") ++
          " (Reference entity not found)")) ∧
     Json.getField (SchemaExporter.convertPropertyToJSONSchema d p) "$ref" =
        none) ∧
    (Json.getField (SchemaExporter.convertPropertyToNoSQL d p) "type" =
        some (.str "reference") ∧
     Json.getField (SchemaExporter.convertPropertyToNoSQL d p)
        "description" = some (optStrJson p.description) ∧
     Json.getField (SchemaExporter.convertPropertyToNoSQL d p) "reference" =
        none) := by
  cases p with
  | mk nm ty ds rq rf rid it ps =>
    simp only [Property.type] at hty
    subst hty
    simp only [Property.referenceEntityId] at hfind
    simp only [Property.description]
    refine ⟨⟨?_, ?_, ?_⟩, ⟨?_, ?_, ?_⟩, ⟨?_, ?_, ?_⟩⟩ <;>
      simp [SchemaExporter.convertPropertyToOpenAPI,
        SchemaExporter.convertPropertyToJSONSchema,
        SchemaExporter.convertPropertyToNoSQL, hfind, recSet, recGet,
        Json.getField, optStrJson, List.find?_cons]

def c8p : Property :=
  .mk "owner" "reference" (some "points somewhere") (some false) none
    (some "ghost") none none

def c8other : Entity :=
  { id := "real", name := "Real", type := "object", properties := [],
    position := ⟨0, 0⟩ }

def c8d : DiagramData := { entities := [c8other], relationships := [] }

/-- Counterexample for C8 as stated: the NoSQL exporter leaves a dangling
`reference` property with type `reference` (not `string`) and appends no
explanatory suffix to its description. -/
theorem nosql_dangling_keeps_reference_type :
    Json.getField (SchemaExporter.convertPropertyToNoSQL c8d c8p) "type" =
      some (.str "reference") ∧
    Json.getField (SchemaExporter.convertPropertyToNoSQL c8d c8p)
      "description" = some (.str "points somewhere") ∧
    Json.getField (SchemaExporter.convertPropertyToNoSQL c8d c8p)
      "reference" = none := by
  refine ⟨?_, ?_, ?_⟩ <;> rfl

/-- Witness for C8 (amended) at the concrete dangling property. -/
theorem dangling_reference_export_behavior_witness :
    (Json.getField (SchemaExporter.convertPropertyToOpenAPI c8d c8p) "type" =
        some (.str "string") ∧
     Json.getField (SchemaExporter.convertPropertyToOpenAPI c8d c8p)
        "description" =
        some (.str ((c8p.description.getD "") ++
          " (Reference entity not found)")) ∧
     Json.getField (SchemaExporter.convertPropertyToOpenAPI c8d c8p)
        "$ref" = none) ∧
    (Json.getField (SchemaExporter.convertPropertyToJSONSchema c8d c8p)
        "type" = some (.str "string") ∧
     Json.getField (SchemaExporter.convertPropertyToJSONSchema c8d c8p)
        "description" =
        some (.str ((c8p.description.getD "") ++
          " (Reference entity not found)")) ∧
     Json.getField (SchemaExporter.convertPropertyToJSONSchema c8d c8p)
        "$ref" = none) ∧
    (Json.getField (SchemaExporter.convertPropertyToNoSQL c8d c8p) "type" =
        some (.str "reference") ∧
     Json.getField (SchemaExporter.convertPropertyToNoSQL c8d c8p)
        "description" = some (optStrJson c8p.description) ∧
     Json.getField (SchemaExporter.convertPropertyToNoSQL c8d c8p)
        "reference" = none) :=
  dangling_reference_export_behavior c8p c8d (by rfl) (by rfl)

/-! ## Claim C5: removeReference -/

/-- C5 (amended): `removeReference` is a no-op when the named property is
missing, is not currently a `reference`, or carries a falsy
`referenceEntityId` (absent or the empty string); otherwise it demotes the
property to `string`, clears the id, and removes exactly the relationships
whose `(source, target)` equals `(owner.id, old referenceEntityId)` —
however many are present (possibly zero) — leaving every other
relationship intact. -/
theorem removeReference_spec (pn : String) (owner : Entity)
    (d : DiagramData) :
    (recGet owner.properties pn = none →
      ReferenceManager.removeReference pn owner d = d) ∧
    (∀ p, recGet owner.properties pn = some p →
      (p.referenceEntityId = none ∨ p.referenceEntityId = some "" ∨
        ¬p.type = "reference") →
      ReferenceManager.removeReference pn owner d = d) ∧
    (∀ p rid, recGet owner.properties pn = some p →
      p.type = "reference" → p.referenceEntityId = some rid → ¬rid = "" →
      (ReferenceManager.removeReference pn owner d).relationships =
        d.relationships.filter (fun rel =>
          !(rel.source == owner.id && rel.target == rid)) ∧
      (∀ e ∈ (ReferenceManager.removeReference pn owner d).entities,
        (e.id = owner.id →
          recGet e.properties pn =
            some ((p.setType "string").setRefId none)) ∧
        (¬e.id = owner.id → e ∈ d.entities))) := by
  refine ⟨?_, ?_, ?_⟩
  · intro h
    simp [ReferenceManager.removeReference, h]
  · intro p hp hcond
    rcases hcond with h | h | h
    · simp [ReferenceManager.removeReference, hp, h]
    · simp [ReferenceManager.removeReference, hp, h]
    · cases hr : p.referenceEntityId with
      | none => simp [ReferenceManager.removeReference, hp, hr]
      | some rid =>
        have hb : (p.type == "reference") = false := by
          simpa using h
        simp [ReferenceManager.removeReference, hp, hr, hb]
  · intro p rid hp hty hrid hne
    have hb : (p.type == "reference") = true := by simpa using hty
    have hb2 : (rid == "") = false := by simpa using hne
    simp only [ReferenceManager.removeReference, hp, hrid, hb, hb2,
      Bool.not_false, Bool.and_self, if_true]
    refine ⟨trivial, ?_⟩
    intro e he
    rcases mem_map_subst he with h | ⟨hmem, hne⟩
    · subst h
      constructor
      · intro _
        exact recGet_recSet_self owner.properties pn _
      · intro hne
        exact absurd rfl hne
    · constructor
      · intro hid
        rw [hid] at hne
        simp at hne
      · intro _
        exact hmem

def c5p : Property :=
  .mk "t" "reference" none (some false) none (some "T") none none

def c5o : Entity :=
  { id := "O", name := "Owner", type := "object",
    properties := [("t", c5p)], position := ⟨0, 0⟩ }

def c5T : Entity :=
  { id := "T", name := "Target", type := "object", properties := [],
    position := ⟨0, 0⟩ }

def c5d : DiagramData := { entities := [c5o, c5T], relationships := [] }

/-- Counterexample for C5 as stated: the named property is currently a
reference, so the claim asserts exactly one Relationship is removed; but the
diagram contains no matching Relationship, the property is still demoted,
and zero relationships are removed. -/
theorem removeReference_removes_zero_counterexample :
    c5p.type = "reference" ∧ c5p.referenceEntityId = some "T" ∧
    recGet c5o.properties "t" = some c5p ∧
    c5d.relationships = [] ∧
    (ReferenceManager.removeReference "t" c5o c5d).relationships = [] ∧
    ((ReferenceManager.removeReference "t" c5o c5d).entities.head?.bind
        (fun e => recGet e.properties "t")).map
        (fun q => (q.type, q.referenceEntityId)) =
      some ("string", none) := by
  refine ⟨rfl, rfl, rfl, rfl, rfl, rfl⟩

/-- Witness for C5 (amended) at the concrete diagram with zero matching
relationships. -/
theorem removeReference_spec_witness :
    (ReferenceManager.removeReference "t" c5o c5d).relationships =
      c5d.relationships.filter (fun rel =>
        !(rel.source == c5o.id && rel.target == "T")) :=
  ((removeReference_spec "t" c5o c5d).2.2 c5p "T" rfl rfl rfl
    (by decide)).1

/-! ## Claim C2: deleteEntity / cleanupReferencesOnEntityDelete -/

/-- C2 (amended): `cleanupReferencesOnEntityDelete` removes every entity
carrying the deleted id and every relationship touching it, and keeps
everything else: the surviving entity sequence is exactly the non-deleted
entities in their original order, each keeping every non-property field
and, property for property in order, each property whose own
`referenceEntityId` equals the deleted id is demoted to `string` with the
id cleared while every other property is kept unchanged; a relationship
survives exactly when it touches the deleted id on neither end.  Property
keys are JS object keys, hence pairwise distinct per entity.  Nested
array `items` descriptors are not inspected or rewritten — see the
counterexample. -/
theorem deleteEntity_spec (del : String) (d : DiagramData)
    (hkeys : ∀ e ∈ d.entities,
      (e.properties.map (fun kv => kv.1)).Nodup) :
    ((ReferenceManager.cleanupReferencesOnEntityDelete del d).entities.map
        (fun e => e.id) =
      (d.entities.filter (fun e => !(e.id == del))).map (fun e => e.id)) ∧
    (∀ r, r ∈ (ReferenceManager.cleanupReferencesOnEntityDelete del
        d).relationships ↔
      (r ∈ d.relationships ∧ ¬r.source = del ∧ ¬r.target = del)) ∧
    List.Forall₂ (fun src e =>
        e = { src with properties := e.properties } ∧
        List.Forall₂ (fun kv kv' => kv'.1 = kv.1 ∧
            (kv.2.referenceEntityId = some del →
              kv'.2 = (kv.2.setType "string").setRefId none) ∧
            (¬kv.2.referenceEntityId = some del → kv'.2 = kv.2))
          src.properties e.properties)
      (d.entities.filter (fun e => !(e.id == del)))
      (ReferenceManager.cleanupReferencesOnEntityDelete del
        d).entities := by
  refine ⟨?_, ?_, ?_⟩
  · show ((d.entities.filter (fun e => !(e.id == del))).map (fun entity =>
        { entity with properties := (ReferenceManager.rebuildProps
          (ReferenceManager.cleanupStep del) entity.properties) })).map
        (fun e => e.id) = _
    rw [List.map_map]
    exact List.map_congr_left (fun x _ => rfl)
  · intro r
    constructor
    · intro hr
      have hr' := List.mem_filter.mp hr
      refine ⟨hr'.1, ?_, ?_⟩
      · intro h
        rw [h] at hr'
        simp at hr'
      · intro h
        rw [h] at hr'
        simp at hr'
    · rintro ⟨hr, h1, h2⟩
      refine List.mem_filter.mpr ⟨hr, ?_⟩
      simp [h1, h2]
  · show List.Forall₂ _ (d.entities.filter (fun e => !(e.id == del)))
      ((d.entities.filter (fun e => !(e.id == del))).map (fun entity =>
        ({ entity with properties := (ReferenceManager.rebuildProps
          (ReferenceManager.cleanupStep del) entity.properties) } :
          Entity)))
    rw [List.forall₂_map_right_iff, List.forall₂_same]
    intro src hsrc
    refine ⟨rfl, ?_⟩
    have hn : (src.properties.map (fun kv => kv.1)).Nodup :=
      hkeys src (List.mem_of_mem_filter hsrc)
    show List.Forall₂ _ src.properties (ReferenceManager.rebuildProps
        (ReferenceManager.cleanupStep del) src.properties)
    rw [rebuildProps_eq_map _ (cleanupStep_fst del) src.properties hn,
      List.forall₂_map_right_iff, List.forall₂_same]
    intro kv hkv
    by_cases hc : (kv.2.referenceEntityId == some del) = true
    · unfold ReferenceManager.cleanupStep
      rw [if_pos hc]
      exact ⟨rfl, fun _ => rfl,
        fun hn2 => absurd (by simpa using hc) hn2⟩
    · unfold ReferenceManager.cleanupStep
      rw [if_neg hc]
      exact ⟨rfl, fun hy => absurd hy (by simpa using hc), fun _ => rfl⟩

def c2itemsP : Property :=
  .mk "item" "reference" none none none (some "A") none none

def c2petsP : Property :=
  .mk "pets" "array" none (some false) none none (some c2itemsP) none

def c2A : Entity :=
  { id := "A", name := "A", type := "object", properties := [],
    position := ⟨0, 0⟩ }

def c2B : Entity :=
  { id := "B", name := "B", type := "object",
    properties := [("pets", c2petsP)], position := ⟨0, 0⟩ }

def c2d : DiagramData :=
  { entities := [c2A, c2B],
    relationships :=
      [{ id := "r", source := "B", target := "A", type := "reference" }] }

/-- Counterexample for C2 as stated: after deleting entity `A`, the
surviving entity's array property still carries an `items` descriptor with
type `reference` and `referenceEntityId = "A"` — nested `items` descriptors
are not demoted or cleared. -/
theorem deleteEntity_items_counterexample :
    (ReferenceManager.cleanupReferencesOnEntityDelete "A" c2d).entities.map
        (fun e => e.id) = ["B"] ∧
    ((ReferenceManager.cleanupReferencesOnEntityDelete "A"
        c2d).entities.head?.bind (fun e =>
          (recGet e.properties "pets").bind (fun p => p.items))).map
        (fun it => (it.type, it.referenceEntityId)) =
      some ("reference", some "A") := by
  exact ⟨rfl, rfl⟩

/-- Witness for C2 (amended): on the concrete diagram the surviving
entity-id sequence is exactly the filtered one. -/
theorem deleteEntity_spec_witness :
    (ReferenceManager.cleanupReferencesOnEntityDelete "A" c2d).entities.map
        (fun e => e.id) =
      (c2d.entities.filter (fun e => !(e.id == "A"))).map
        (fun e => e.id) :=
  (deleteEntity_spec "A" c2d (by decide)).1

/-! ## Claim C7: four entities, zero relationships, 2×2 grid -/

def c7a : Entity :=
  { id := "dup", name := "A", type := "object", properties := [],
    position := ⟨0, 0⟩ }

def c7b : Entity :=
  { id := "dup", name := "B", type := "object", properties := [],
    position := ⟨500, 500⟩ }

def c7c : Entity :=
  { id := "c", name := "C", type := "object", properties := [],
    position := ⟨0, 0⟩ }

def c7e : Entity :=
  { id := "d", name := "D", type := "object", properties := [],
    position := ⟨0, 0⟩ }

def c7List : List Entity := [c7a, c7b, c7c, c7e]

/-- Counterexample for C7 as stated: a Diagram with exactly 4 entities and
zero relationships (two entities sharing an id) for which the grid strategy
leaves two entities at the same position — the `findIndex`-by-id write
pattern updates the first id match only. -/
theorem grid_four_entities_collision_counterexample :
    (applyLayoutToDiagram (fun _ => 0) c7List [] "grid" {}).map
        (fun l => l.map (fun e => e.position)) =
      some [⟨500, 100⟩, ⟨500, 500⟩, ⟨100, 500⟩, ⟨500, 500⟩] ∧
    ((applyLayoutToDiagram (fun _ => 0) c7List [] "grid" {}).bind
        (fun l => (l.get? 1).map (fun e => e.position))) =
      ((applyLayoutToDiagram (fun _ => 0) c7List [] "grid" {}).bind
        (fun l => (l.get? 3).map (fun e => e.position))) := by
  exact ⟨rfl, rfl⟩

/-- C7 (amended): for four entities with pairwise distinct ids and zero
relationships, the grid strategy — and the depth-hierarchical strategy,
which falls back to it — places the entities row-major on the exact 2×2
grid with uniform 400-pixel cell spacing, changing nothing but positions,
and the four positions are pairwise distinct.  The force-directed strategy
takes no grid fallback: it runs its floating-point relaxation from the grid
seeding, so the exact-grid statement does not extend to it. -/
theorem grid_fallback_four_entities (q : JsNum → JsNum)
    (e1 e2 e3 e4 : Entity)
    (h12 : ¬e1.id = e2.id) (h13 : ¬e1.id = e3.id) (h14 : ¬e1.id = e4.id)
    (h23 : ¬e2.id = e3.id) (h24 : ¬e2.id = e4.id) (h34 : ¬e3.id = e4.id) :
    applyLayoutToDiagram q [e1, e2, e3, e4] [] "grid" {} =
      some [{ e1 with position := ⟨100, 100⟩ },
            { e2 with position := ⟨500, 100⟩ },
            { e3 with position := ⟨100, 500⟩ },
            { e4 with position := ⟨500, 500⟩ }] ∧
    applyLayoutToDiagram q [e1, e2, e3, e4] [] "hierarchical" {} =
      applyLayoutToDiagram q [e1, e2, e3, e4] [] "grid" {} ∧
    ((⟨100, 100⟩ : Position) ≠ ⟨500, 100⟩ ∧
     (⟨100, 100⟩ : Position) ≠ ⟨100, 500⟩ ∧
     (⟨100, 100⟩ : Position) ≠ ⟨500, 500⟩ ∧
     (⟨500, 100⟩ : Position) ≠ ⟨100, 500⟩ ∧
     (⟨500, 100⟩ : Position) ≠ ⟨500, 500⟩ ∧
     (⟨100, 500⟩ : Position) ≠ ⟨500, 500⟩) := by
  have b12 : (e1.id == e2.id) = false := beq_eq_false_iff_ne.mpr h12
  have b13 : (e1.id == e3.id) = false := beq_eq_false_iff_ne.mpr h13
  have b14 : (e1.id == e4.id) = false := beq_eq_false_iff_ne.mpr h14
  have b23 : (e2.id == e3.id) = false := beq_eq_false_iff_ne.mpr h23
  have b24 : (e2.id == e4.id) = false := beq_eq_false_iff_ne.mpr h24
  have b34 : (e3.id == e4.id) = false := beq_eq_false_iff_ne.mpr h34
  refine ⟨?_, rfl, by decide⟩
  have henum : ([e1, e2, e3, e4]).enum =
      [(0, e1), (1, e2), (2, e3), (3, e4)] := rfl
  simp only [applyLayoutToDiagram, applyGridLayout, assignPos, henum]
  have hs1 : (("grid" : String) == "hierarchical") = false := by decide
  have hs2 : (("grid" : String) == "force-directed") = false := by decide
  have hlen : ([e1, e2, e3, e4] : List Entity).length = 4 := rfl
  have hcs : natCeilSqrt 4 = 2 := by decide
  simp only [List.foldl_cons, List.foldl_nil, List.findIdx?_cons,
    beq_self_eq_true, b12, b13, b14, b23, b24, b34, hs1, hs2, hlen, hcs,
    Nat.reduceMod, Nat.reduceDiv, if_true, if_false, Bool.false_eq_true,
    Option.map_some, Option.map_none, List.get?_cons_zero,
    List.get?_cons_succ, List.set_cons_zero, List.set_cons_succ,
    eq_self_iff_true]
  rfl

def c7w1 : Entity :=
  { id := "w1", name := "A", type := "object", properties := [],
    position := ⟨0, 0⟩ }

def c7w2 : Entity :=
  { id := "w2", name := "B", type := "object", properties := [],
    position := ⟨0, 0⟩ }

def c7w3 : Entity :=
  { id := "w3", name := "C", type := "object", properties := [],
    position := ⟨0, 0⟩ }

def c7w4 : Entity :=
  { id := "w4", name := "D", type := "object", properties := [],
    position := ⟨0, 0⟩ }

/-- Witness for C7 (amended) at four concrete distinct-id entities. -/
theorem grid_fallback_four_entities_witness :
    applyLayoutToDiagram (fun _ => 0) [c7w1, c7w2, c7w3, c7w4] [] "grid"
        {} =
      some [{ c7w1 with position := ⟨100, 100⟩ },
            { c7w2 with position := ⟨500, 100⟩ },
            { c7w3 with position := ⟨100, 500⟩ },
            { c7w4 with position := ⟨500, 500⟩ }] :=
  (grid_fallback_four_entities (fun _ => 0) c7w1 c7w2 c7w3 c7w4
    (by decide) (by decide) (by decide) (by decide) (by decide)
    (by decide)).1

/-! ## Claims C3 and C10: import→export round trips -/

/-- Chained field lookup in an exported document. -/
def Json.getPath : Json → List String → Option Json
  | j, [] => some j
  | j, k :: rest =>
    match j.getField k with
    | some v => v.getPath rest
    | none => none

/-- The string content of a JSON node, when it is a string. -/
def jsonStrVal : Json → Option String
  | .str s => some s
  | _ => none

/-- The length of a JSON array node, when it is an array. -/
def jsonArrLen : Json → Option Nat
  | .arr xs => some xs.length
  | _ => none

/-- The C3 scenario input:
`{A: {}, B: {properties: {a: {$ref: '#/components/schemas/A'}}}}` under
`components.schemas`. -/
def c3Doc : Json :=
  .obj [("components", .obj [("schemas", .obj
    [("A", .obj []),
     ("B", .obj [("properties", .obj
       [("a", .obj [("$ref", .str "#/components/schemas/A")])])])])])]

def c3Export : Option Json :=
  (SchemaParser.parseOpenAPI (fun _ => 0) c3Doc).map (fun ps =>
    SchemaExporter.exportToOpenAPI (SchemaParser.toDiagramData ps))

/-- C3: importing the document `{A: {}, B: {properties: {a: {$ref:
'#/components/schemas/A'}}}}` and exporting the resulting Diagram as
`openapi` reproduces a `$ref` string `#/components/schemas/A` under
`B.properties.a`. -/
theorem import_export_ref_roundtrip :
    (c3Export.bind (fun j => j.getPath
        ["components", "schemas", "B", "properties", "a", "$ref"])).bind
      jsonStrVal = some "#/components/schemas/A" := by
  decide

/-- The importer gives every produced property a local `required: false`
flag, whatever the definition says. -/
theorem parseProperty_required (name : String) (propDef : Json) :
    (SchemaParser.parseProperty name propDef).required = some false := by
  unfold SchemaParser.parseProperty
  cases SchemaParser.jsize propDef with
  | zero => simp [SchemaParser.parsePropertyF]
  | succ n =>
    simp only [SchemaParser.parsePropertyF]
    repeat' split
    all_goals simp

/-- The C10 scenario input: a definition with one property and a non-empty
`required` list. -/
def c10Doc : Json :=
  .obj [("components", .obj [("schemas", .obj
    [("A", .obj
      [("properties", .obj [("x", .obj [("type", .str "string")])]),
       ("required", .arr [.str "x"])])])])]

def c10Export : Option Json :=
  (SchemaParser.parseOpenAPI (fun _ => 0) c10Doc).map (fun ps =>
    SchemaExporter.exportToOpenAPI (SchemaParser.toDiagramData ps))

/-- C10: the importer sets every produced property's local `required` flag
to `false` (recording the definition's list only on the Entity), and since
the OpenAPI exporter rebuilds `required` solely from the per-property flag,
importing a definition with `required: ['x']` and exporting it yields a
schema whose `required` array is empty. -/
theorem importer_required_flag_and_roundtrip :
    (∀ (name : String) (propDef : Json),
      (SchemaParser.parseProperty name propDef).required = some false) ∧
    (c10Export.bind (fun j =>
        j.getPath ["components", "schemas", "A", "required"])).bind
      jsonArrLen = some 0 ∧
    ((c10Export.bind (fun j =>
        j.getPath ["components", "schemas", "A", "properties", "x"])).isSome
      = true) :=
  ⟨parseProperty_required, by decide, by decide⟩

/-! ## Claim C9: the layout engine only rewrites positions

The engine returns a fresh entity list and never returns or touches a
relationship list, so the relationship sequence cannot be modified; the
content of the claim is the per-entity frame property below. -/

/-- The output entity agrees with the input entity on every field except
possibly `position`. -/
def eqExceptPos (o c : Entity) : Prop := c = { o with position := c.position }

/-- Pointwise frame relation between the input entity sequence and a layout
result: same length, and each output entity differs from the input entity
at the same index at most in `position`. -/
def FrameOk (orig cur : List Entity) : Prop := List.Forall₂ eqExceptPos orig cur

theorem frameOk_refl (l : List Entity) : FrameOk l l :=
  List.forall₂_same.mpr (fun _ _ => rfl)

theorem frameOk_map_pos (l : List Entity) (g : Entity → Position) :
    FrameOk l (l.map (fun e => { e with position := g e })) := by
  induction l with
  | nil => exact List.Forall₂.nil
  | cons e rest ih => exact List.Forall₂.cons rfl ih

/-- `assignPos` (the `findIndex`-then-overwrite-position pattern) preserves
the frame relation. -/
theorem frameOk_assignPos {orig cur : List Entity} (h : FrameOk orig cur)
    (tid : String) (p : Position) : FrameOk orig (assignPos cur tid p) := by
  unfold assignPos
  cases hidx : cur.findIdx? (fun e => e.id == tid) with
  | none => exact h
  | some idx =>
    dsimp only
    cases hget : cur.get? idx with
    | none => exact h
    | some e =>
      dsimp only
      rw [FrameOk, List.forall₂_iff_get] at h ⊢
      obtain ⟨hlen, hall⟩ := h
      refine ⟨by simpa using hlen, ?_⟩
      intro i h1 h2
      have hisl : i < cur.length := by simpa using h2
      by_cases hi : i = idx
      · subst hi
        have hgete : cur.get ⟨i, hisl⟩ = e := by
          rw [List.get?_eq_get hisl] at hget
          exact Option.some.inj hget
        have hset : (cur.set i { e with position := p }).get ⟨i, h2⟩ =
            { e with position := p } := by
          simp [List.get_eq_getElem]
        rw [hset]
        have := hall i h1 hisl
        rw [hgete] at this
        rw [this]
        rfl
      · have hset : (cur.set idx { e with position := p }).get ⟨i, h2⟩ =
            cur.get ⟨i, hisl⟩ := by
          simp [List.get_eq_getElem, List.getElem_set_of_ne (fun hh => hi hh.symm)]
        rw [hset]
        exact hall i h1 hisl

/-- Folding frame-preserving steps preserves the frame relation. -/
theorem frameOk_foldl {β : Type} {orig : List Entity}
    (f : List Entity → β → List Entity)
    (hf : ∀ cur b, FrameOk orig cur → FrameOk orig (f cur b)) :
    ∀ (l : List β) (cur : List Entity), FrameOk orig cur →
      FrameOk orig (l.foldl f cur)
  | [], cur, h => h
  | b :: rest, cur, h => frameOk_foldl f hf rest (f cur b) (hf cur b h)

theorem frameOk_grid (entities : List Entity) (o : LayoutOptions) :
    FrameOk entities (applyGridLayout entities o) := by
  unfold applyGridLayout
  exact frameOk_foldl _ (fun cur b h => frameOk_assignPos h _ _) _ _
    (frameOk_refl entities)

theorem frameOk_positionByDepth (entities : List Entity)
    (gs : List (Nat × List String)) (a b c d : JsNum) :
    FrameOk entities (positionEntitiesByReferenceDepth entities gs a b c d) := by
  unfold positionEntitiesByReferenceDepth
  refine frameOk_foldl _ ?_ _ _ (frameOk_refl entities)
  intro cur g h
  exact frameOk_foldl _ (fun cur2 ie h2 => frameOk_assignPos h2 _ _) _ _ h

theorem frameOk_force (sq : JsNum → JsNum) (entities : List Entity)
    (rels : List Relationship) (o : LayoutOptions) (out : List Entity)
    (h : applyForceDirectedLayout sq entities rels o = some out) :
    FrameOk entities out := by
  unfold applyForceDirectedLayout at h
  by_cases hlen : (entities.length == 0) = true
  · rw [if_pos hlen] at h
    cases h
    exact frameOk_refl entities
  · rw [if_neg hlen] at h
    dsimp only at h
    split at h
    · exact absurd h (by simp)
    · cases h
      exact frameOk_map_pos entities _

theorem frameOk_hierarchical (sq : JsNum → JsNum) (entities : List Entity)
    (rels : List Relationship) (o : LayoutOptions) (out : List Entity)
    (h : applyHierarchicalLayout sq entities rels o = some out) :
    FrameOk entities out := by
  unfold applyHierarchicalLayout at h
  dsimp only at h
  split at h
  · cases h
    exact frameOk_refl entities
  · split at h
    · cases h
      exact frameOk_grid entities o
    · split at h
      · exact frameOk_force sq entities rels o out h
      · cases h
        exact frameOk_positionByDepth entities _ _ _ _ _

/-- C9: whenever the layout engine returns an entity sequence — for any
entities, relationships, strategy string and options, and any
interpretation of `Math.sqrt` — the output has the same length and each
output entity differs from the input entity at its index at most in the
`position` field; relationships are not returned and hence not modified. -/
theorem layout_engine_frame (sq : JsNum → JsNum) (entities : List Entity)
    (relationships : List Relationship) (layoutType : String)
    (o : LayoutOptions) (out : List Entity)
    (h : applyLayoutToDiagram sq entities relationships layoutType o =
      some out) :
    FrameOk entities out := by
  unfold applyLayoutToDiagram at h
  split at h
  · exact frameOk_hierarchical sq entities relationships o out h
  · split at h
    · exact frameOk_force sq entities relationships o out h
    · split at h
      · cases h
        exact frameOk_grid entities o
      · cases h
        exact frameOk_refl entities

def c9e : Entity :=
  { id := "solo", name := "Solo", type := "object", properties := [],
    position := ⟨7, 7⟩ }

/-- Witness for C9: the grid layout of a single entity only moves its
position. -/
theorem layout_engine_frame_witness :
    FrameOk [c9e] [{ c9e with position := ⟨100, 100⟩ }] :=
  layout_engine_frame (fun _ => 0) [c9e] [] "grid" {}
    [{ c9e with position := ⟨100, 100⟩ }] (by rfl)

/-! ## Claim C1: the reference-correspondence invariant under
Reference-Manager operation sequences -/

/-- The five Reference-Manager operations; the entity-creating operation
carries the `Date.now()` value used to mint ids. -/
inductive RMOp where
  | connect (sourceEntity targetEntity : Entity)
  | mkEntityRef (propertyName : String) (sourceEntity : Entity)
      (now : String)
  | removeRef (propertyName : String) (sourceEntity : Entity)
  | deleteEntity (entityId : String)
  | renameEntity (entityId oldName newName : String)

def applyRMOp (op : RMOp) (d : DiagramData) : DiagramData :=
  match op with
  | .connect s t => ReferenceManager.createReferenceOnConnection s t d
  | .mkEntityRef pn s now =>
    ReferenceManager.createEntityForReference pn s now d
  | .removeRef pn s => ReferenceManager.removeReference pn s d
  | .deleteEntity eid =>
    ReferenceManager.cleanupReferencesOnEntityDelete eid d
  | .renameEntity eid oldN newN =>
    ReferenceManager.updateReferencesOnEntityRename eid oldN newN d

def applyRMOps (ops : List RMOp) (d : DiagramData) : DiagramData :=
  ops.foldl (fun d op => applyRMOp op d) d

def entityIds (d : DiagramData) : List String :=
  d.entities.map (fun e => e.id)

/-- Top-level reference validity of one property: a `reference`-typed
property either has no `referenceEntityId` or points at one of the given
entity ids. -/
def propRefOkTop (ids : List String) (p : Property) : Prop :=
  p.type = "reference" →
    (p.referenceEntityId = none ∨
      ∃ rid ∈ ids, p.referenceEntityId = some rid)

instance (ids : List String) (p : Property) :
    Decidable (propRefOkTop ids p) := by
  unfold propRefOkTop
  infer_instance

/-- The §3 reference-correspondence invariant restricted to entities' own
(top-level) properties. -/
def refOkTop (d : DiagramData) : Prop :=
  ∀ e ∈ d.entities, ∀ kv ∈ e.properties, propRefOkTop (entityIds d) kv.2

instance (d : DiagramData) : Decidable (refOkTop d) := by
  unfold refOkTop
  exact List.decidableBAll _ _

mutual

/-- The invariant of the claim as stated: reference validity of a property
including its `items` descriptor and nested object properties, anywhere. -/
def propRefOkFull (ids : List String) : Property → Bool
  | .mk _ t _ _ _ rid it ps =>
    (if t == "reference" then
       (match rid with
        | none => true
        | some x => ids.contains x)
     else true) &&
    (match it with
     | none => true
     | some q => propRefOkFull ids q) &&
    (match ps with
     | none => true
     | some l => propsRefOkFull ids l)

def propsRefOkFull (ids : List String) :
    List (String × Property) → Bool
  | [] => true
  | kv :: rest => propRefOkFull ids kv.2 && propsRefOkFull ids rest

end

/-- The claim's invariant over a whole Diagram, including `items`
descriptors and nested object properties. -/
def refOkFull (d : DiagramData) : Bool :=
  d.entities.all (fun e =>
    e.properties.all (fun kv => propRefOkFull (entityIds d) kv.2))

/-- Counterexample for C1 as stated: the concrete diagram `c2d` satisfies
the full invariant (including `items` descriptors), yet after the single
Reference-Manager operation `deleteEntity "A"` an `items` descriptor still
references the removed entity, so the invariant fails. -/
theorem reference_invariant_items_counterexample :
    refOkFull c2d = true ∧
    refOkFull (applyRMOp (.deleteEntity "A") c2d) = false := ⟨rfl, rfl⟩

/-- Well-formed invocation: operations that take Entity arguments receive
entities of the current diagram, and connect targets an existing entity (as
the UI does: it passes the nodes of the drawn edge). -/
def opWellFormed (d : DiagramData) : RMOp → Prop
  | .connect s t => s ∈ d.entities ∧ t.id ∈ entityIds d
  | .mkEntityRef _ s _ => s ∈ d.entities
  | .removeRef _ s => s ∈ d.entities
  | .deleteEntity _ => True
  | .renameEntity _ _ _ => True

theorem propRefOkTop_mono {ids ids' : List String}
    (hsub : ∀ x ∈ ids, x ∈ ids') {p : Property}
    (h : propRefOkTop ids p) : propRefOkTop ids' p := by
  intro ht
  rcases h ht with h1 | ⟨rid, hmem, heq⟩
  · exact Or.inl h1
  · exact Or.inr ⟨rid, hsub rid hmem, heq⟩

/-- Transport of `propRefOkTop` along type/reference-id-preserving
rewrites. -/
theorem propRefOkTop_of_same {ids : List String} {p q : Property}
    (hty : q.type = p.type)
    (hrid : q.referenceEntityId = p.referenceEntityId)
    (h : propRefOkTop ids p) : propRefOkTop ids q := by
  intro ht
  rw [hrid]
  exact h (hty ▸ ht)

/-- Replacing the entities whose id matches `sid` by an entity carrying
that id preserves the top-level invariant, provided the new entity's
properties are valid against the old id set. -/
theorem refOkTop_subst_entities {ents : List Entity} {sid : String}
    {newE : Entity} (hid : newE.id = sid)
    (h : ∀ e ∈ ents, ∀ kv ∈ e.properties,
      propRefOkTop (ents.map (fun e => e.id)) kv.2)
    (hnew : ∀ kv ∈ newE.properties,
      propRefOkTop (ents.map (fun e => e.id)) kv.2) :
    ∀ e ∈ ents.map (fun x => if x.id == sid then newE else x),
      ∀ kv ∈ e.properties,
        propRefOkTop ((ents.map (fun x => if x.id == sid then newE
          else x)).map (fun e => e.id)) kv.2 := by
  intro e he kv hkv
  rw [map_subst_ids hid]
  rcases mem_map_subst he with h1 | ⟨h1, _⟩
  · subst h1
    exact hnew kv hkv
  · exact h e h1 kv hkv

/-- Old entity ids survive the substitute-then-append entity update of
`createEntityForReference`'s new-entity branch. -/
theorem mem_ids_subst_append {ents : List Entity} {sid : String}
    {newE : Entity} (hid : newE.id = sid) (tail : List Entity) {x : String}
    (hx : x ∈ ents.map (fun e => e.id)) :
    x ∈ ((ents.map (fun e => if e.id == sid then newE else e)) ++
      tail).map (fun e => e.id) := by
  rw [List.map_append, map_subst_ids hid]
  exact List.mem_append.mpr (Or.inl hx)

/-- One well-formed Reference-Manager operation preserves the top-level
reference-correspondence invariant. -/
theorem applyRMOp_preserves_refOkTop (op : RMOp) (d : DiagramData)
    (hop : opWellFormed d op) (h : refOkTop d) :
    refOkTop (applyRMOp op d) := by
  cases op with
  | connect s t =>
    obtain ⟨hs, ht⟩ := hop
    simp only [applyRMOp, ReferenceManager.createReferenceOnConnection]
    split
    · exact h
    · intro e he kv hkv
      refine refOkTop_subst_entities ?_ h ?_ e he kv hkv
      · rfl
      · intro kv0 hkv0
        rcases mem_recSet hkv0 with h1 | h1
        · subst h1
          intro _
          exact Or.inr ⟨t.id, ht, rfl⟩
        · exact h s hs kv0 h1
  | mkEntityRef pn s now =>
    simp only [applyRMOp, ReferenceManager.createEntityForReference]
    split
    · next existing hfind =>
      intro e he kv hkv
      refine refOkTop_subst_entities ?_ h ?_ e he kv hkv
      · rfl
      · intro kv0 hkv0
        rcases mem_recSet hkv0 with h1 | h1
        · subst h1
          intro _
          refine Or.inr ⟨existing.id, ?_, by simp⟩
          exact List.mem_map.mpr
            ⟨existing, List.mem_of_find?_eq_some hfind, rfl⟩
        · exact h s hop kv0 h1
    · intro e he kv hkv
      rcases List.mem_append.mp he with h1 | h1
      · rcases mem_map_subst h1 with h2 | ⟨h2, _⟩
        · subst h2
          intro ht
          rcases mem_recSet hkv with h3 | h3
          · right
            refine ⟨"entity-" ++ now, ?_, ?_⟩
            · exact List.mem_map.mpr
                ⟨_, List.mem_append_right _ (List.mem_singleton.mpr rfl),
                 rfl⟩
            · rw [congrArg Prod.snd h3]
              simp
          · rcases h s hop kv h3 ht with h4 | ⟨rid, hmem, heq⟩
            · exact Or.inl h4
            · refine Or.inr ⟨rid, mem_ids_subst_append ?_ _ hmem, heq⟩
              rfl
        · refine propRefOkTop_mono
            (fun x hx => mem_ids_subst_append ?_ _ hx) (h e h2 kv hkv)
          rfl
      · rw [List.mem_singleton] at h1
        subst h1
        simp at hkv
  | removeRef pn s =>
    simp only [applyRMOp, ReferenceManager.removeReference]
    split
    · exact h
    · next p hget =>
      split
      · exact h
      · split
        · intro e he kv hkv
          refine refOkTop_subst_entities ?_ h ?_ e he kv hkv
          · rfl
          · intro kv0 hkv0
            rcases mem_recSet hkv0 with h1 | h1
            · subst h1
              intro ht
              exact absurd ht (by simp)
            · exact h s hop kv0 h1
        · exact h
  | deleteEntity del =>
    intro e he kv hkv
    simp only [applyRMOp,
      ReferenceManager.cleanupReferencesOnEntityDelete] at he
    rcases List.mem_map.mp he with ⟨a, ha, heq⟩
    obtain ⟨haMem, haCond⟩ := List.mem_filter.mp ha
    have hprops : e.properties = ReferenceManager.rebuildProps
        (ReferenceManager.cleanupStep del) a.properties := by rw [← heq]
    rw [hprops] at hkv
    refine mem_rebuildProps
      (Q := fun kv => propRefOkTop
        (entityIds (applyRMOp (.deleteEntity del) d)) kv.2)
      _ a.properties ?_ kv hkv
    intro kv0 hkv0
    by_cases hc : (kv0.2.referenceEntityId == some del) = true
    · simp only [ReferenceManager.cleanupStep, if_pos hc]
      intro ht
      exact absurd ht (by simp)
    · simp only [ReferenceManager.cleanupStep, if_neg hc]
      intro ht
      rcases h a haMem kv0 hkv0 ht with h1 | ⟨rid, hmem, heq2⟩
      · exact Or.inl h1
      · refine Or.inr ⟨rid, ?_, heq2⟩
        rcases List.mem_map.mp hmem with ⟨e0, he0, hid0⟩
        have hne : (e0.id == del) = false := by
          rw [hid0]
          rw [heq2] at hc
          simpa using fun hrid => hc (by rw [hrid]; exact beq_self_eq_true _)
        exact List.mem_map.mpr ⟨_, List.mem_map.mpr
          ⟨e0, List.mem_filter.mpr ⟨he0, by simp [hne]⟩, rfl⟩, hid0⟩
  | renameEntity eid oldN newN =>
    intro e he kv hkv
    simp only [applyRMOp,
      ReferenceManager.updateReferencesOnEntityRename] at he
    rcases List.mem_map.mp he with ⟨a, ha, heq⟩
    have hprops : e.properties = ReferenceManager.rebuildProps
        (ReferenceManager.renameStep eid (toCamelCase oldN)
          (toCamelCase newN) newN) a.properties := by rw [← heq]
    rw [hprops] at hkv
    have hsub : ∀ x ∈ entityIds d,
        x ∈ entityIds (applyRMOp (.renameEntity eid oldN newN) d) := by
      intro x hx
      rcases List.mem_map.mp hx with ⟨e0, he0, hid0⟩
      exact List.mem_map.mpr ⟨_, List.mem_map.mpr ⟨e0, he0, rfl⟩, hid0⟩
    refine mem_rebuildProps
      (Q := fun kv => propRefOkTop
        (entityIds (applyRMOp (.renameEntity eid oldN newN) d)) kv.2)
      _ a.properties ?_ kv hkv
    intro kv0 hkv0
    have hbase : propRefOkTop (entityIds d) kv0.2 := h a ha kv0 hkv0
    by_cases hc : (kv0.2.referenceEntityId == some eid) = true
    · by_cases hk : (kv0.1 == toCamelCase oldN) = true
      · simp only [ReferenceManager.renameStep, if_pos hc, if_pos hk]
        exact propRefOkTop_of_same (by simp) (by simp)
          (propRefOkTop_mono hsub hbase)
      · simp only [ReferenceManager.renameStep, if_pos hc, if_neg hk]
        exact propRefOkTop_of_same (by simp) (by simp)
          (propRefOkTop_mono hsub hbase)
    · simp only [ReferenceManager.renameStep, if_neg hc]
      exact propRefOkTop_mono hsub hbase

/-- Preservation along a whole operation list, each operation well formed
at its point of invocation. -/
theorem applyRMOps_preserves_aux (pre : List RMOp) :
    ∀ d : DiagramData, refOkTop d →
    (∀ p op rest, pre = p ++ op :: rest →
      opWellFormed (applyRMOps p d) op) →
    refOkTop (applyRMOps pre d) := by
  induction pre with
  | nil => intro d h _; exact h
  | cons op0 rest ih =>
    intro d h hwf
    have h0 : opWellFormed d op0 := hwf [] op0 rest rfl
    have h1 : refOkTop (applyRMOp op0 d) :=
      applyRMOp_preserves_refOkTop op0 d h0 h
    have hstep : applyRMOps (op0 :: rest) d =
        applyRMOps rest (applyRMOp op0 d) := rfl
    rw [hstep]
    refine ih (applyRMOp op0 d) h1 ?_
    intro p op r hp
    exact hwf (op0 :: p) op r (by rw [hp]; rfl)

/-- C1 (amended): for every Diagram satisfying the top-level
reference-correspondence invariant — every reference-typed property of an
entity has a `referenceEntityId` that is absent or names an entity of the
diagram — and every finite sequence of Reference-Manager operations whose
entity arguments are well formed at each point of invocation, the
invariant holds again after every prefix of the sequence.  The original
claim's strengthening to array `items` descriptors is false: see the
counterexample, where `cleanupReferencesOnEntityDelete` leaves a dangling
`items` reference. -/
theorem rm_ops_preserve_reference_invariant (d : DiagramData)
    (ops : List RMOp) (h : refOkTop d)
    (hwf : ∀ p op rest, ops = p ++ op :: rest →
      opWellFormed (applyRMOps p d) op) :
    ∀ pre post, ops = pre ++ post → refOkTop (applyRMOps pre d) := by
  intro pre post hsplit
  refine applyRMOps_preserves_aux pre d h ?_
  intro p op rest hp
  refine hwf p op (rest ++ post) ?_
  rw [hsplit, hp, List.append_assoc, List.cons_append]

/-- Witness for C1 (amended): the single well-formed operation sequence
`[deleteEntity "A"]` applied to the concrete diagram `c2d` keeps the
top-level invariant. -/
theorem rm_ops_preserve_reference_invariant_witness :
    refOkTop (applyRMOps [RMOp.deleteEntity "A"] c2d) :=
  rm_ops_preserve_reference_invariant c2d [RMOp.deleteEntity "A"]
    (by decide)
    (by
      intro p op rest hp
      cases p with
      | nil =>
        rw [List.nil_append] at hp
        injection hp with h1 h2
        subst h1
        trivial
      | cons x xs =>
        injection hp with h1 h2
        simp at h2)
    [RMOp.deleteEntity "A"] [] rfl

end NoSqlDiagram
